import Mathlib

/-!
The `gpt` client of gpt-go: a verification development.

A shallow embedding of the `gpt` client package (`gpt.go`, `model.go`, `options.go`):
the request builders, the status check, and the line-oriented streaming decoder.

Conventions of the embedding.

* A Go `[]byte` (and a Go `string`, which is a byte sequence) is a `List Nat` of byte values.
* `interface{}` payloads are `Option`: `none` is the untyped `nil` interface.
* A response body is its remaining bytes together with the error its reader reports once
  those bytes are used up (`io.EOF` for a clean end), and a count of `Close` calls.
* `onData` is an arbitrary callback; a streaming call records the frames it is called with.
* A `client` holds its `http.Client` by value, as a call reads it; while `NewClient` builds
  the client the `http.Client` objects are kept by address, since `WithTimeout` writes
  through the pointer. A panic is the result `none`.
* `encoding/json` decoders are parameters, functions into `Except Error α`; the encoder
  writes the text of a JSON value built from the struct tags of `model.go`.
-/

namespace Gpt

/-! ## Bytes -/

/-- A Go byte slice: each element is a byte value. -/
abbrev Bytes := List Nat

/-- The bytes of a string constant (its UTF-8 encoding). -/
def bytesOf (s : String) : Bytes :=
  (s.toList.flatMap String.utf8EncodeChar).map UInt8.toNat

/-! ## The parts of `unicode/utf8`, `unicode` and `bytes` the decoder calls -/

/-- Go `utf8.RuneError`. -/
def RuneError : Nat := 0xFFFD

/-- Go `utf8.RuneSelf`: bytes below it are single-byte runes. -/
def RuneSelf : Nat := 0x80

/-- Go `utf8.UTFMax`. -/
def UTFMax : Nat := 4

/-- Go `utf8.RuneStart`: the byte is not a continuation byte. -/
def RuneStart (b : Nat) : Bool := b &&& 0xC0 != 0x80

/-- Go `utf8.DecodeRune`: the first rune of `p` and its width in bytes;
`(RuneError, 1)` for an invalid encoding and `(RuneError, 0)` for no input. -/
def DecodeRune : Bytes → Nat × Nat
  | [] => (RuneError, 0)
  | p0 :: rest =>
    if p0 < RuneSelf then (p0, 1)
    else if p0 < 0xC2 ∨ 0xF4 < p0 then (RuneError, 1)
    else
      let sz : Nat := if p0 < 0xE0 then 2 else if p0 < 0xF0 then 3 else 4
      let lo : Nat := if p0 = 0xE0 then 0xA0 else if p0 = 0xF0 then 0x90 else 0x80
      let hi : Nat := if p0 = 0xED then 0x9F else if p0 = 0xF4 then 0x8F else 0xBF
      if rest.length + 1 < sz then (RuneError, 1)
      else
        match rest with
        | [] => (RuneError, 1)
        | b1 :: rest1 =>
          if b1 < lo ∨ hi < b1 then (RuneError, 1)
          else if sz ≤ 2 then ((p0 &&& 0x1F) <<< 6 ||| (b1 &&& 0x3F), 2)
          else
            match rest1 with
            | [] => (RuneError, 1)
            | b2 :: rest2 =>
              if b2 < 0x80 ∨ 0xBF < b2 then (RuneError, 1)
              else if sz ≤ 3 then
                ((p0 &&& 0x0F) <<< 12 ||| (b1 &&& 0x3F) <<< 6 ||| (b2 &&& 0x3F), 3)
              else
                match rest2 with
                | [] => (RuneError, 1)
                | b3 :: _ =>
                  if b3 < 0x80 ∨ 0xBF < b3 then (RuneError, 1)
                  else
                    ((p0 &&& 0x07) <<< 18 ||| (b1 &&& 0x3F) <<< 12 ||| (b2 &&& 0x3F) <<< 6
                      ||| (b3 &&& 0x3F), 4)

/-- The backward scan of `utf8.DecodeLastRune`: starting at index `start`, move down to the
nearest rune-start byte, not going below `lim`. -/
def scanBack (p : Bytes) (lim : Int) : Nat → Int → Int
  | 0, start => start
  | fuel + 1, start =>
    if lim ≤ start then
      if RuneStart (p.getD start.toNat 0) then start else scanBack p lim fuel (start - 1)
    else start

/-- Go `utf8.DecodeLastRune`: the last rune of `p` and its width. -/
def DecodeLastRune (p : Bytes) : Nat × Nat :=
  if p.length = 0 then (RuneError, 0)
  else
    let r := p.getD (p.length - 1) 0
    if r < RuneSelf then (r, 1)
    else
      let lim : Int := max 0 ((p.length : Int) - UTFMax)
      let start : Int := max 0 (scanBack p lim UTFMax ((p.length : Int) - 2))
      let d := DecodeRune (p.drop start.toNat)
      if start.toNat + d.2 ≠ p.length then (RuneError, 1) else d

/-- Go `unicode.IsSpace`: the Unicode White_Space property. -/
def IsSpace (r : Nat) : Bool :=
  if r ≤ 0xFF then
    r = 0x09 ∨ r = 0x0A ∨ r = 0x0B ∨ r = 0x0C ∨ r = 0x0D ∨ r = 0x20 ∨ r = 0x85 ∨ r = 0xA0
  else
    r = 0x1680 ∨ (0x2000 ≤ r ∧ r ≤ 0x200A) ∨ r = 0x2028 ∨ r = 0x2029 ∨ r = 0x202F
      ∨ r = 0x205F ∨ r = 0x3000

/-- The `asciiSpace` table of package `bytes`: tab, newline, vertical tab, form feed,
carriage return and space. -/
def asciiSpace (c : Nat) : Bool :=
  c = 0x09 ∨ c = 0x0A ∨ c = 0x0B ∨ c = 0x0C ∨ c = 0x0D ∨ c = 0x20

/-- Go `bytes.TrimLeftFunc`: drop leading runes satisfying `f`. The first argument bounds
the number of runes examined; the length of the slice is always enough. -/
def TrimLeftFunc (f : Nat → Bool) : Nat → Bytes → Bytes
  | 0, s => s
  | _ + 1, [] => []
  | fuel + 1, c :: cs =>
    let d := if RuneSelf ≤ c then DecodeRune (c :: cs) else (c, 1)
    if f d.1 then TrimLeftFunc f fuel ((c :: cs).drop d.2) else c :: cs

/-- Go `bytes.lastIndexFunc(s, f, false)`: the byte index of the last rune of `s` that does
not satisfy `f`, or `none` (Go: -1). -/
def lastIndexFunc (f : Nat → Bool) : Nat → Bytes → Option Nat
  | 0, _ => none
  | fuel + 1, s =>
    if s.length = 0 then none
    else
      let last := s.getD (s.length - 1) 0
      let d := if RuneSelf ≤ last then DecodeLastRune s else (last, 1)
      let i := s.length - d.2
      if f d.1 then lastIndexFunc f fuel (s.take i) else some i

/-- Go `bytes.TrimRightFunc`: drop trailing runes satisfying `f`. -/
def TrimRightFunc (f : Nat → Bool) (s : Bytes) : Bytes :=
  match lastIndexFunc f s.length s with
  | none => s.take 0
  | some i =>
    if RuneSelf ≤ s.getD i 0 then s.take (i + (DecodeRune (s.drop i)).2) else s.take (i + 1)

/-- Go `bytes.TrimFunc`. -/
def TrimFunc (f : Nat → Bool) (s : Bytes) : Bytes :=
  TrimRightFunc f (TrimLeftFunc f s.length s)

/-- Go `bytes.TrimSpace`: slice off leading and trailing white space. ASCII space bytes are
skipped from the front and then from the back; the first non-ASCII byte met on either side
hands the remaining slice to the rune-wise `TrimFunc`. -/
def TrimSpace (s : Bytes) : Bytes :=
  match s.dropWhile asciiSpace with
  | [] => []
  | c :: cs =>
    if RuneSelf ≤ c then TrimFunc IsSpace (c :: cs)
    else
      match (c :: cs).reverse.dropWhile asciiSpace with
      | [] => []
      | d :: ds =>
        if RuneSelf ≤ d then TrimFunc IsSpace (d :: ds).reverse else (d :: ds).reverse

/-- Go `bytes.HasPrefix`. -/
def HasPrefix (s pre : Bytes) : Bool :=
  pre.length ≤ s.length ∧ s.take pre.length = pre

/-- Go `bytes.TrimPrefix`. -/
def TrimPrefix (s pre : Bytes) : Bytes :=
  if HasPrefix s pre then s.drop pre.length else s

/-- The result of `bufio.Reader.ReadBytes('\n')` on the bytes still to come: the line up to and
including the first newline together with what follows it, or `none` when the input ends
before a newline (Go then returns the partial data and the reader's error). -/
def readBytes : Bytes → Option (Bytes × Bytes)
  | [] => none
  | b :: rest =>
    if b = 0x0A then some ([b], rest)
    else
      match readBytes rest with
      | some (line, rest') => some (b :: line, rest')
      | none => none

/-! ## Errors and response bodies -/

/-- Go `APIError` (`model.go`): the typed error of a failed API call. Its string fields hold
whatever bytes the response carried. -/
structure APIError where
  StatusCode : Int
  Message : Bytes
  Type_ : Bytes
  deriving DecidableEq, Repr

/-- Go `APIErrorResponse` (`model.go`). -/
structure APIErrorResponse where
  Error : APIError
  deriving DecidableEq, Repr

/-- The Go `error` values that occur in the package. -/
inductive Error where
  /-- The value `io.EOF`. -/
  | EOF
  /-- Any other error value produced outside the package (transport, body reader,
  `encoding/json`, `net/url`), identified by its text. -/
  | other (text : Bytes)
  /-- An `APIError` returned as an error. -/
  | api (e : APIError)
  /-- The value `fmt.Errorf(context + ": %w", cause)` when `wraps`, and
  `fmt.Errorf(context + ": %v", cause)` otherwise. -/
  | errorf (context : String) (wraps : Bool) (cause : Error)
  deriving DecidableEq, Repr

/-- Go `APIError.Error` (`model.go`): `fmt.Sprintf("[%d:%s] %s", StatusCode, Type, Message)`. -/
def APIError.text (e : APIError) : Bytes :=
  bytesOf "[" ++ bytesOf (toString e.StatusCode) ++ bytesOf ":" ++ e.Type_ ++ bytesOf "] "
    ++ e.Message

/-- The text `err.Error()` of an error value. -/
def Error.text : Error → Bytes
  | .EOF => bytesOf "EOF"
  | .other t => t
  | .api e => e.text
  | .errorf context _ cause => bytesOf context ++ bytesOf ": " ++ cause.text

/-- An HTTP response body: the bytes still to be read, the error its reader reports once
they are used up (`Error.EOF` for a clean end of input), and how many times `Close` has
been called on it. -/
structure Body where
  data : Bytes
  err : Error
  closed : Nat := 0
  deriving DecidableEq, Repr

/-- Go `rsp.Body.Close()`. -/
def Body.Close (b : Body) : Body := { b with closed := b.closed + 1 }

/-- Go `io.ReadAll`: all the bytes when the input ends cleanly, the reader's error otherwise. -/
def ReadAll (b : Body) : Except Error Bytes :=
  match b.err with
  | .EOF => .ok b.data
  | e => .error e

/-! ## The streaming decoder -/

/-- Go `dataPrefix`. -/
def dataPrefix : Bytes := bytesOf "data: "

/-- Go `doneSequence`. -/
def doneSequence : Bytes := bytesOf "[DONE]"

/-- What a streaming call has done when it returns: the frames `onData` was called with,
in call order, and the returned error (`none` is Go `nil`). -/
structure StreamResult (α : Type) where
  delivered : List α
  err : Option Error
  deriving DecidableEq, Repr

/-- The `for` loop shared by `ChatCompletionStream` and `CompletionStreamWithEngine`
(`gpt.go`), one iteration per unit of the first argument. `unmarshal` is `json.Unmarshal`
into a fresh frame, `endErr` the reader's error at the end of input, `buf` the bytes not
yet read and `delivered` the frames handed to `onData` so far. The result is `none` only
if the iteration budget runs out. -/
def streamLoop {α : Type} (unmarshal : Bytes → Except Error α) (endErr : Error) :
    Nat → Bytes → List α → Option (StreamResult α)
  | 0, _, _ => none
  | fuel + 1, buf, delivered =>
    match readBytes buf with
    | none => some ⟨delivered, some endErr⟩
    | some (line, rest) =>
      let line := TrimSpace line
      if !HasPrefix line dataPrefix then streamLoop unmarshal endErr fuel rest delivered
      else
        let line := TrimPrefix line dataPrefix
        if HasPrefix line doneSequence then some ⟨delivered, none⟩
        else
          match unmarshal line with
          | .error err => some ⟨delivered, some (.errorf "invalid json stream data" false err)⟩
          | .ok output => streamLoop unmarshal endErr fuel rest (delivered ++ [output])

/-- The streaming loop run on a response body. Every iteration consumes at least one byte,
so one more iteration than there are bytes always suffices (`readStream_total`). -/
def readStream {α : Type} (unmarshal : Bytes → Except Error α) (body : Body) :
    Option (StreamResult α) :=
  streamLoop unmarshal body.err (body.data.length + 1) body.data []

/-! ## JSON values and `json.Marshal`

Floating-point numbers are never computed with: `F` stands for their type, and the three
things `encoding/json` does with one (test it for zero, print it, reject it) are parameters. -/

/-- A JSON value; the members of an object are in encoding order. -/
inductive JSON (F : Type) where
  | null
  | bool (b : Bool)
  | int (n : Int)
  | float (x : F)
  | str (s : String)
  | arr (xs : List (JSON F))
  | obj (members : List (String × JSON F))

mutual
/-- The text `encoding/json` writes for a value. `formatFloat` prints a number or rejects it
(NaN, infinities); `quote` writes a string literal. -/
def JSON.encode {F : Type} (formatFloat : F → Except Error Bytes) (quote : String → Bytes) :
    JSON F → Except Error Bytes
  | .null => .ok (bytesOf "null")
  | .bool b => .ok (bytesOf (if b then "true" else "false"))
  | .int n => .ok (bytesOf (toString n))
  | .float x => formatFloat x
  | .str s => .ok (quote s)
  | .arr xs =>
    match JSON.encodeElems formatFloat quote xs with
    | .error err => .error err
    | .ok b => .ok (bytesOf "[" ++ b ++ bytesOf "]")
  | .obj members =>
    match JSON.encodeMembers formatFloat quote members with
    | .error err => .error err
    | .ok b => .ok (bytesOf "\x7b" ++ b ++ bytesOf "\x7d")
/-- The elements of an array, separated by commas. -/
def JSON.encodeElems {F : Type} (formatFloat : F → Except Error Bytes)
    (quote : String → Bytes) : List (JSON F) → Except Error Bytes
  | [] => .ok []
  | [x] => JSON.encode formatFloat quote x
  | x :: y :: xs =>
    match JSON.encode formatFloat quote x with
    | .error err => .error err
    | .ok a =>
      match JSON.encodeElems formatFloat quote (y :: xs) with
      | .error err => .error err
      | .ok b => .ok (a ++ bytesOf "," ++ b)
/-- The members of an object, `"key":value` separated by commas. -/
def JSON.encodeMembers {F : Type} (formatFloat : F → Except Error Bytes)
    (quote : String → Bytes) : List (String × JSON F) → Except Error Bytes
  | [] => .ok []
  | [(k, v)] =>
    match JSON.encode formatFloat quote v with
    | .error err => .error err
    | .ok a => .ok (quote k ++ bytesOf ":" ++ a)
  | (k, v) :: m :: ms =>
    match JSON.encode formatFloat quote v with
    | .error err => .error err
    | .ok a =>
      match JSON.encodeMembers formatFloat quote (m :: ms) with
      | .error err => .error err
      | .ok b => .ok (quote k ++ bytesOf ":" ++ a ++ bytesOf "," ++ b)
end

/-- A Go slice: `none` is the nil slice. -/
abbrev Slice (α : Type) := Option (List α)

/-- Go `len` of a slice. -/
def Slice.len {α : Type} : Slice α → Nat
  | none => 0
  | some xs => xs.length

/-- A Go `map[string]T`: `none` is the nil map, and the entries are listed in increasing
key order, the order in which `encoding/json` writes them. -/
abbrev GoMap (α : Type) := Option (List (String × α))

/-- A slice as JSON: `null` for the nil slice, an array otherwise. -/
def jsonSlice {α F : Type} (f : α → JSON F) : Slice α → JSON F
  | none => .null
  | some xs => .arr (xs.map f)

/-- A pointer as JSON: `null` for the nil pointer, the value pointed to otherwise. -/
def jsonPtr {α F : Type} (f : α → JSON F) : Option α → JSON F
  | none => .null
  | some x => f x

/-- A map as JSON. -/
def jsonMap {α F : Type} (f : α → JSON F) : GoMap α → JSON F
  | none => .null
  | some kvs => .obj (kvs.map (fun kv => (kv.1, f kv.2)))

/-- A struct field tagged `omitempty`: left out when its value is empty. -/
def omitempty {F : Type} (empty : Bool) (key : String) (v : JSON F) : List (String × JSON F) :=
  if empty then [] else [(key, v)]

/-! ## Request and response shapes (`model.go`) -/

/-- Go `ChatCompletionRequestMessage`. -/
structure ChatCompletionRequestMessage where
  Role : String
  Content : String
  deriving DecidableEq, Repr

/-- Go `ChatCompletionRequest`. -/
structure ChatCompletionRequest (F : Type) where
  Model : String
  Messages : Slice ChatCompletionRequestMessage
  Temperature : F
  TopP : F
  N : Int
  Stream : Bool
  Stop : Slice String
  MaxTokens : Int
  PresencePenalty : F
  FrequencyPenalty : F
  LogitBias : GoMap F
  User : String

/-- Go `CompletionRequest`. -/
structure CompletionRequest (F : Type) where
  Model : String
  Prompt : Slice String
  Suffix : String
  MaxTokens : Int
  Temperature : F
  TopP : Option F
  N : Option Int
  Stream : Bool
  LogProbs : Option Int
  Echo : Bool
  Stop : Slice String
  PresencePenalty : F
  FrequencyPenalty : F
  BestOf : Int
  LogitBias : GoMap F
  User : String

/-- Go `EditsRequest`. -/
structure EditsRequest (F : Type) where
  Model : String
  Input : String
  Instruction : String
  N : Option Int
  Temperature : Option F
  TopP : Option F

/-- Go `EmbeddingsRequest`. -/
structure EmbeddingsRequest where
  Input : Slice String
  Model : String
  User : String
  deriving DecidableEq, Repr

/-- Go `SearchRequest`. -/
structure SearchRequest where
  Documents : Slice String
  Query : String
  deriving DecidableEq, Repr

/-- The JSON object of a `ChatCompletionRequestMessage`, from its struct tags. -/
def ChatCompletionRequestMessage.toJSON {F : Type} (m : ChatCompletionRequestMessage) : JSON F :=
  .obj [("role", .str m.Role), ("content", .str m.Content)]

/-- The JSON object of a `ChatCompletionRequest`, field by field from its struct tags. -/
def ChatCompletionRequest.toJSON {F : Type} (isZero : F → Bool) (r : ChatCompletionRequest F) :
    JSON F :=
  .obj (
    [("model", .str r.Model),
     ("messages", jsonSlice ChatCompletionRequestMessage.toJSON r.Messages)]
    ++ omitempty (isZero r.Temperature) "temperature" (.float r.Temperature)
    ++ omitempty (isZero r.TopP) "top_p" (.float r.TopP)
    ++ omitempty (r.N == 0) "n" (.int r.N)
    ++ omitempty (!r.Stream) "stream" (.bool r.Stream)
    ++ omitempty (r.Stop.len == 0) "stop" (jsonSlice .str r.Stop)
    ++ omitempty (r.MaxTokens == 0) "max_tokens" (.int r.MaxTokens)
    ++ omitempty (isZero r.PresencePenalty) "presence_penalty" (.float r.PresencePenalty)
    ++ omitempty (isZero r.FrequencyPenalty) "frequency_penalty" (.float r.FrequencyPenalty)
    ++ omitempty (Slice.len r.LogitBias == 0) "logit_bias" (jsonMap .float r.LogitBias)
    ++ omitempty (r.User == "") "user" (.str r.User))

/-- The JSON object of a `CompletionRequest`, field by field from its struct tags. -/
def CompletionRequest.toJSON {F : Type} (isZero : F → Bool) (r : CompletionRequest F) : JSON F :=
  .obj (
    [("model", .str r.Model)]
    ++ omitempty (r.Prompt.len == 0) "prompt" (jsonSlice .str r.Prompt)
    ++ omitempty (r.Suffix == "") "suffix" (.str r.Suffix)
    ++ omitempty (r.MaxTokens == 0) "max_tokens" (.int r.MaxTokens)
    ++ omitempty (isZero r.Temperature) "temperature" (.float r.Temperature)
    ++ omitempty r.TopP.isNone "top_p" (jsonPtr .float r.TopP)
    ++ [("n", jsonPtr .int r.N)]
    ++ omitempty (!r.Stream) "stream" (.bool r.Stream)
    ++ [("logprobs", jsonPtr .int r.LogProbs),
        ("echo", .bool r.Echo)]
    ++ omitempty (r.Stop.len == 0) "stop" (jsonSlice .str r.Stop)
    ++ [("presence_penalty", .float r.PresencePenalty),
        ("frequency_penalty", .float r.FrequencyPenalty)]
    ++ omitempty (r.BestOf == 0) "best_of" (.int r.BestOf)
    ++ omitempty (Slice.len r.LogitBias == 0) "logit_bias" (jsonMap .float r.LogitBias)
    ++ omitempty (r.User == "") "user" (.str r.User))

/-- The JSON object of an `EditsRequest`. -/
def EditsRequest.toJSON {F : Type} (r : EditsRequest F) : JSON F :=
  .obj (
    [("model", .str r.Model)]
    ++ omitempty (r.Input == "") "input" (.str r.Input)
    ++ [("instruction", .str r.Instruction)]
    ++ omitempty r.N.isNone "n" (jsonPtr .int r.N)
    ++ omitempty r.Temperature.isNone "temperature" (jsonPtr .float r.Temperature)
    ++ omitempty r.TopP.isNone "top_p" (jsonPtr .float r.TopP))

/-- The JSON object of an `EmbeddingsRequest`. -/
def EmbeddingsRequest.toJSON {F : Type} (r : EmbeddingsRequest) : JSON F :=
  .obj (
    [("input", jsonSlice .str r.Input), ("model", .str r.Model)]
    ++ omitempty (r.User == "") "user" (.str r.User))

/-- The JSON object of a `SearchRequest`. -/
def SearchRequest.toJSON {F : Type} (r : SearchRequest) : JSON F :=
  .obj [("documents", jsonSlice .str r.Documents), ("query", .str r.Query)]

/-- Go `EngineObject`. -/
structure EngineObject where
  ID : String
  Object : String
  Owner : String
  Ready : Bool
  deriving DecidableEq, Repr

/-- Go `EnginesResponse`. -/
structure EnginesResponse where
  Data : Slice EngineObject
  Object : String
  deriving DecidableEq, Repr

/-- Go `ChatCompletionResponseMessage`. -/
structure ChatCompletionResponseMessage where
  Role : String
  Content : String
  deriving DecidableEq, Repr

/-- Go `ChatCompletionResponseChoice`. -/
structure ChatCompletionResponseChoice where
  Index : Int
  FinishReason : String
  Message : ChatCompletionResponseMessage
  deriving DecidableEq, Repr

/-- Go `ChatCompletionStreamResponseChoice`. -/
structure ChatCompletionStreamResponseChoice where
  Index : Int
  FinishReason : String
  Delta : ChatCompletionResponseMessage
  deriving DecidableEq, Repr

/-- Go `ChatCompletionsResponseUsage`. -/
structure ChatCompletionsResponseUsage where
  PromptTokens : Int
  CompletionTokens : Int
  TotalTokens : Int
  deriving DecidableEq, Repr

/-- Go `ChatCompletionResponse`. -/
structure ChatCompletionResponse where
  ID : String
  Object : String
  Created : Int
  Model : String
  Choices : Slice ChatCompletionResponseChoice
  Usage : ChatCompletionsResponseUsage
  deriving DecidableEq, Repr

/-- Go `ChatCompletionStreamResponse`: one frame of a streamed chat completion. -/
structure ChatCompletionStreamResponse where
  ID : String
  Object : String
  Created : Int
  Model : String
  Choices : Slice ChatCompletionStreamResponseChoice
  Usage : ChatCompletionsResponseUsage
  deriving DecidableEq, Repr

/-- Go `LogProbResult`. -/
structure LogProbResult (F : Type) where
  Tokens : Slice String
  TokenLogProbs : Slice F
  TopLogProbs : Slice (GoMap F)
  TextOffset : Slice Int
  deriving DecidableEq, Repr

/-- Go `CompletionResponseChoice`. -/
structure CompletionResponseChoice (F : Type) where
  Text : String
  Index : Int
  LogProbs : LogProbResult F
  FinishReason : String
  deriving DecidableEq, Repr

/-- Go `CompletionResponseUsage`. -/
structure CompletionResponseUsage where
  PromptTokens : Int
  CompletionTokens : Int
  TotalTokens : Int
  deriving DecidableEq, Repr

/-- Go `CompletionResponse`: a completion, and also one frame of a streamed completion. -/
structure CompletionResponse (F : Type) where
  ID : String
  Object : String
  Created : Int
  Model : String
  Choices : Slice (CompletionResponseChoice F)
  Usage : CompletionResponseUsage
  deriving DecidableEq, Repr

/-- Go `EditsResponseChoice`. -/
structure EditsResponseChoice where
  Text : String
  Index : Int
  deriving DecidableEq, Repr

/-- Go `EditsResponseUsage`. -/
structure EditsResponseUsage where
  PromptTokens : Int
  CompletionTokens : Int
  TotalTokens : Int
  deriving DecidableEq, Repr

/-- Go `EditsResponse`. -/
structure EditsResponse where
  Object : String
  Created : Int
  Choices : Slice EditsResponseChoice
  Usage : EditsResponseUsage
  deriving DecidableEq, Repr

/-- Go `EmbeddingsResult`. -/
structure EmbeddingsResult (F : Type) where
  Object : String
  Embedding : Slice F
  Index : Int
  deriving DecidableEq, Repr

/-- Go `EmbeddingsUsage`. -/
structure EmbeddingsUsage where
  PromptTokens : Int
  TotalTokens : Int
  deriving DecidableEq, Repr

/-- Go `EmbeddingsResponse`. -/
structure EmbeddingsResponse (F : Type) where
  Object : String
  Data : Slice (EmbeddingsResult F)
  Usage : EmbeddingsUsage
  deriving DecidableEq, Repr

/-- Go `SearchData`. -/
structure SearchData (F : Type) where
  Document : Int
  Object : String
  Score : F
  deriving DecidableEq, Repr

/-- Go `SearchResponse`. -/
structure SearchResponse (F : Type) where
  Data : Slice (SearchData F)
  Object : String
  deriving DecidableEq, Repr

/-! ## The client (`gpt.go`, `options.go`) -/

/-- Go `GPT3Dot5Turbo`. -/
def GPT3Dot5Turbo : String := "gpt-3.5-turbo"

/-- Go `DavinciEngine`. -/
def DavinciEngine : String := "davinci"

/-- Go `DefaultEngine`. -/
def DefaultEngine : String := DavinciEngine

/-- Go `defaultBaseURL`. -/
def defaultBaseURL : String := "https://api.openai.com/v1"

/-- Go `defaultUserAgent`. -/
def defaultUserAgent : String := "go-gpt3"

/-- Go `defaultTimeoutSeconds`. -/
def defaultTimeoutSeconds : Int := 30

/-- Go `time.Second`, in nanoseconds. -/
def Second : Int := 1000000000

/-- Go `net/http.Header` as this package uses it (only `Set`): one value per key. -/
abbrev Header := List (String × String)

/-- The header-name bytes of `net/textproto` (`validHeaderFieldByte`): the token characters
of RFC 7230. -/
def validHeaderFieldByte (c : Char) : Bool :=
  c.isAlphanum ∨ c.toNat ∈ [33, 35, 36, 37, 38, 39, 42, 43, 45, 46, 94, 95, 96, 124, 126]

/-- The rewriting loop of `textproto.canonicalMIMEHeaderKey`: upper case for the first letter
and for a letter after a dash, lower case elsewhere. -/
def canonicalLetters : Bool → List Char → List Char
  | _, [] => []
  | upper, c :: cs =>
    let c' := if upper then c.toUpper else c.toLower
    c' :: canonicalLetters (c' == '-') cs

/-- Go `textproto.CanonicalMIMEHeaderKey`: a name made of token characters is put in
canonical case, any other is returned unchanged. -/
def CanonicalMIMEHeaderKey (s : String) : String :=
  if s.toList.all validHeaderFieldByte then String.mk (canonicalLetters true s.toList) else s

/-- Go `Header.Set`: the value of the canonical key is replaced. -/
def Header.Set (h : Header) (key value : String) : Header :=
  (CanonicalMIMEHeaderKey key, value) :: h.filter (fun e => e.1 != CanonicalMIMEHeaderKey key)

/-- Go `Header.Get`. -/
def Header.Get (h : Header) (key : String) : Option String :=
  h.lookup (CanonicalMIMEHeaderKey key)

/-- An outgoing `*http.Request`: what `newRequest` sets. -/
structure HTTPRequest where
  Method : String
  URL : String
  Header : Header
  Body : Bytes
  deriving DecidableEq, Repr

/-- An incoming `*http.Response`. -/
structure HTTPResponse where
  StatusCode : Int
  Body : Body
  deriving DecidableEq, Repr

/-- Go `*http.Client`: its timeout, and what `Do` answers to each request (the network is a
function of the request). -/
structure HTTPClient where
  Timeout : Int
  Do : HTTPRequest → Except Error HTTPResponse

/-- Go `client` (`gpt.go`). -/
structure client where
  baseURL : String
  apiKey : String
  userAgent : String
  httpClient : HTTPClient
  defaultEngine : String
  idOrg : String

/-- A pointer to an `http.Client` object: nil, the one `NewClient` allocates, or one of the
caller's, by number. -/
inductive ClientPtr where
  | nil
  | fresh
  | caller (n : Nat)
  deriving DecidableEq, Repr

/-- The `client` struct behind the pointer `NewClient` works on and returns. Its `httpClient`
field is a pointer; `fresh` is the `http.Client` object `NewClient` allocates and `callers`
are the caller's objects, so that a write through the pointer is seen by whoever holds the
same pointer. (`client` above is this struct with a non-nil pointer followed: what a call
reads.) -/
structure Building where
  baseURL : String
  apiKey : String
  userAgent : String
  httpClient : ClientPtr
  defaultEngine : String
  idOrg : String
  fresh : HTTPClient
  callers : Nat → HTTPClient

/-- The `http.Client` object behind a pointer; there is none behind nil. -/
def Building.deref (b : Building) : ClientPtr → Option HTTPClient
  | .nil => none
  | .fresh => some b.fresh
  | .caller n => some (b.callers n)

/-- The client as a call reads it, with the `http.Client` pointer followed. There is none
when the pointer is nil: a call then panics once it reaches `c.httpClient.Do(req)`. -/
def Building.client (b : Building) : Option client :=
  match b.deref b.httpClient with
  | none => none
  | some httpClient =>
    some
      { baseURL := b.baseURL
        apiKey := b.apiKey
        userAgent := b.userAgent
        httpClient := httpClient
        defaultEngine := b.defaultEngine
        idOrg := b.idOrg }

/-- Go `ClientOption` (`options.go`), a value of the function type `func(*client) *client`:
the nil function, or a function, whose result is `none` when it panics. -/
inductive ClientOption where
  | nil
  | fn (f : Building → Option Building)

/-- Go `ClientOption.apply`: `fn(cli)`, a panic when `fn` is nil. -/
def ClientOption.apply : ClientOption → Building → Option Building
  | .nil, _ => none
  | .fn f, cli => f cli

/-- Go `WithOrg`. -/
def WithOrg (id : String) : ClientOption := .fn fun cli => some { cli with idOrg := id }

/-- Go `WithDefaultEngine`. -/
def WithDefaultEngine (engine : String) : ClientOption :=
  .fn fun cli => some { cli with defaultEngine := engine }

/-- Go `WithUserAgent`. -/
def WithUserAgent (userAgent : String) : ClientOption :=
  .fn fun cli => some { cli with userAgent := userAgent }

/-- Go `WithBaseURL`. -/
def WithBaseURL (baseURL : String) : ClientOption :=
  .fn fun cli => some { cli with baseURL := baseURL }

/-- Go `WithHTTPClient`: the argument is nil (`none`) or a pointer to one of the caller's
`http.Client` objects. -/
def WithHTTPClient (httpClient : Option Nat) : ClientOption :=
  .fn fun cli =>
    some
      { cli with
        httpClient :=
          match httpClient with
          | none => .nil
          | some n => .caller n }

/-- Go `WithTimeout`: `cli.httpClient.Timeout = timeout`, a write to the `http.Client`
object the client points to at that moment, and a panic when that pointer is nil. -/
def WithTimeout (timeout : Int) : ClientOption :=
  .fn fun cli =>
    match cli.httpClient with
    | .nil => none
    | .fresh => some { cli with fresh := { cli.fresh with Timeout := timeout } }
    | .caller n =>
      some
        { cli with
          callers := fun m =>
            if m = n then { cli.callers m with Timeout := timeout } else cli.callers m }

/-- The construction `NewClient` performs: the defaults, then the options in order; the
result is the struct behind the pointer `NewClient` returns, or `none` when an option
panics, which ends the construction. `callerClients` are the caller's `http.Client` objects
and `transport` is what the `http.Client` allocated here answers. -/
def NewClient.build (callerClients : Nat → HTTPClient)
    (transport : HTTPRequest → Except Error HTTPResponse) (apiKey : String)
    (options : List ClientOption) : Option Building :=
  let httpClient : HTTPClient := { Timeout := defaultTimeoutSeconds * Second, Do := transport }
  let cli : Building :=
    { userAgent := defaultUserAgent
      apiKey := apiKey
      baseURL := defaultBaseURL
      httpClient := .fresh
      defaultEngine := DefaultEngine
      idOrg := ""
      fresh := httpClient
      callers := callerClients }
  options.foldl (fun cli opt => cli.bind opt.apply) (some cli)

/-- Go `NewClient`, as the calls read its result: the client built, with its `http.Client`
pointer followed. It is `none` when an option panics, and when the client is left with a nil
`http.Client`, on which a call panics once it reaches `c.httpClient.Do(req)`. -/
def NewClient (callerClients : Nat → HTTPClient)
    (transport : HTTPRequest → Except Error HTTPResponse) (apiKey : String)
    (options : List ClientOption) : Option client :=
  (NewClient.build callerClients transport apiKey options).bind Building.client

/-- No `http.Client` objects of the caller's: for clients built without `WithHTTPClient`. -/
def noClients : Nat → HTTPClient := fun _ => { Timeout := 0, Do := fun _ => .error .EOF }

/-- The library behaviour the package calls but does not define. -/
structure Runtime (F : Type) where
  /-- Whether `omitempty` treats the number as empty. -/
  floatIsZero : F → Bool
  /-- How `encoding/json` prints a number, or the error with which it rejects it. -/
  formatFloat : F → Except Error Bytes
  /-- The JSON string literal `encoding/json` writes for a string. -/
  quote : String → Bytes
  /-- The error of `http.NewRequestWithContext` for a method and a URL, if any. -/
  newRequestErr : String → String → Option Error
  /-- Go `json.Unmarshal` into an `APIErrorResponse`. -/
  unmarshalAPIError : Bytes → Except Error APIErrorResponse
  /-- Go `json.Unmarshal` into a `ChatCompletionStreamResponse`. -/
  unmarshalChatStream : Bytes → Except Error ChatCompletionStreamResponse
  /-- Go `json.Unmarshal` into a `CompletionResponse`. -/
  unmarshalCompletion : Bytes → Except Error (CompletionResponse F)
  /-- Go `json.NewDecoder(body).Decode` into an `EnginesResponse`. -/
  decodeEngines : Body → Except Error EnginesResponse
  /-- Go `json.NewDecoder(body).Decode` into an `EngineObject`. -/
  decodeEngine : Body → Except Error EngineObject
  /-- Go `json.NewDecoder(body).Decode` into a `ChatCompletionResponse`. -/
  decodeChatCompletion : Body → Except Error ChatCompletionResponse
  /-- Go `json.NewDecoder(body).Decode` into a `CompletionResponse`. -/
  decodeCompletion : Body → Except Error (CompletionResponse F)
  /-- Go `json.NewDecoder(body).Decode` into an `EditsResponse`. -/
  decodeEdits : Body → Except Error EditsResponse
  /-- Go `json.NewDecoder(body).Decode` into a `SearchResponse`. -/
  decodeSearch : Body → Except Error (SearchResponse F)
  /-- Go `json.NewDecoder(body).Decode` into an `EmbeddingsResponse`. -/
  decodeEmbeddings : Body → Except Error (EmbeddingsResponse F)

/-- A value stored in an `interface{}` payload: a request struct, or a pointer that is nil
or points to such a value. -/
inductive GoValue (S : Type) where
  | struct (s : S)
  | pointer (target : Option (GoValue S))

/-- The JSON value of a payload: a nil pointer encodes as `null`, any other pointer as what
it points to. -/
def GoValue.toJSON {S F : Type} (enc : S → JSON F) : GoValue S → JSON F
  | .struct s => enc s
  | .pointer none => .null
  | .pointer (some v) => GoValue.toJSON enc v

/-- Go `json.Marshal`. -/
def jsonMarshal {S F : Type} (rt : Runtime F) (enc : S → JSON F) (v : GoValue S) :
    Except Error Bytes :=
  (v.toJSON enc).encode rt.formatFloat rt.quote

/-- Go `checkForSuccess`: the error, if any, and the response as it leaves the function. -/
def checkForSuccess {F : Type} (rt : Runtime F) (rsp : HTTPResponse) :
    Option Error × HTTPResponse :=
  if 200 ≤ rsp.StatusCode ∧ rsp.StatusCode < 300 then (none, rsp)
  else
    let closed : HTTPResponse := { rsp with Body := rsp.Body.Close }
    match ReadAll rsp.Body with
    | .error err => (some (.errorf "failed to read from body" true err), closed)
    | .ok data =>
      match rt.unmarshalAPIError data with
      | .error _ =>
        let apiError : APIError :=
          { StatusCode := rsp.StatusCode, Type_ := bytesOf "Unexpected", Message := data }
        (some (.api apiError), closed)
      | .ok result => (some (.api { result.Error with StatusCode := rsp.StatusCode }), closed)

/-- Go `client.performRequest`: the response or the error, together with the body of the
response received, if one was, as the function leaves it. -/
def client.performRequest {F : Type} (rt : Runtime F) (c : client) (req : HTTPRequest) :
    Except Error HTTPResponse × Option Body :=
  match c.httpClient.Do req with
  | .error err => (.error err, none)
  | .ok rsp =>
    match checkForSuccess rt rsp with
    | (some err, rsp') => (.error err, some rsp'.Body)
    | (none, rsp') => (.ok rsp', some rsp'.Body)

/-- Go `getResponseObject`: `decode` is `json.NewDecoder(rsp.Body).Decode` into the target. -/
def getResponseObject {ρ : Type} (decode : Body → Except Error ρ) (rsp : HTTPResponse) :
    Except Error ρ × HTTPResponse :=
  let closed : HTTPResponse := { rsp with Body := rsp.Body.Close }
  match decode rsp.Body with
  | .error err => (.error (.errorf "invalid json response" true err), closed)
  | .ok v => (.ok v, closed)

/-- Go `jsonBodyReader`: the bytes of the buffer it returns. `none` is the nil interface. -/
def jsonBodyReader {S F : Type} (rt : Runtime F) (enc : S → JSON F)
    (body : Option (GoValue S)) : Except Error Bytes :=
  match body with
  | none => .ok []
  | some v =>
    match jsonMarshal rt enc v with
    | .error err => .error (.errorf "failed encoding json" true err)
    | .ok raw => .ok raw

/-- Go `client.newRequest`. -/
def client.newRequest {S F : Type} (rt : Runtime F) (c : client) (method path : String)
    (enc : S → JSON F) (payload : Option (GoValue S)) : Except Error HTTPRequest :=
  match jsonBodyReader rt enc payload with
  | .error err => .error err
  | .ok bodyReader =>
    let url := c.baseURL ++ path
    match rt.newRequestErr method url with
    | some err => .error err
    | none =>
      let header : Header := []
      let header := if c.idOrg.length > 0 then header.Set "OpenAI-Organization" c.idOrg else header
      let header := header.Set "Content-type" "application/json"
      let header := header.Set "Authorization" ("Bearer " ++ c.apiKey)
      .ok { Method := method, URL := url, Header := header, Body := bodyReader }

/-- What a non-streaming call has done when it returns: the request it handed to
`httpClient.Do` (if it got that far), the body of the response it received (if any) as the
call leaves it, and the returned value or error. -/
structure CallResult (ρ : Type) where
  sent : Option HTTPRequest
  body : Option Body
  result : Except Error ρ

/-- What a streaming call has done when it returns: as `CallResult`, with the frames `onData`
was called with in place of a returned value. -/
structure StreamCallResult (α : Type) where
  sent : Option HTTPRequest
  body : Option Body
  delivered : List α
  err : Option Error
  deriving DecidableEq, Repr

/-- The body every non-streaming entry point repeats: `newRequest`, `performRequest`,
`getResponseObject`, each error returned as it is. -/
def client.call {S F ρ : Type} (rt : Runtime F) (c : client) (method path : String)
    (enc : S → JSON F) (payload : Option (GoValue S)) (decode : Body → Except Error ρ) :
    CallResult ρ :=
  match c.newRequest rt method path enc payload with
  | .error err => ⟨none, none, .error err⟩
  | .ok req =>
    match c.performRequest rt req with
    | (.error err, body) => ⟨some req, body, .error err⟩
    | (.ok rsp, _) =>
      match getResponseObject decode rsp with
      | (result, rsp') => ⟨some req, some rsp'.Body, result⟩

/-- The body both streaming entry points repeat: `newRequest`, `performRequest`, then the
read loop on the response body, which is closed when the function returns. -/
def client.callStream {S F α : Type} (rt : Runtime F) (c : client) (path : String)
    (enc : S → JSON F) (payload : Option (GoValue S)) (unmarshal : Bytes → Except Error α) :
    Option (StreamCallResult α) :=
  match c.newRequest rt "POST" path enc payload with
  | .error err => some ⟨none, none, [], some err⟩
  | .ok req =>
    match c.performRequest rt req with
    | (.error err, body) => some ⟨some req, body, [], some err⟩
    | (.ok rsp, _) =>
      match readStream unmarshal rsp.Body with
      | none => none
      | some r => some ⟨some req, some rsp.Body.Close, r.delivered, r.err⟩

/-- Go `client.Engines`: the payload is the untyped `nil`. -/
def client.Engines {F : Type} (rt : Runtime F) (c : client) : CallResult EnginesResponse :=
  c.call rt "GET" "/engines" (fun (_ : Unit) => (.null : JSON F)) none rt.decodeEngines

/-- Go `client.Engine`: the payload is the untyped `nil`. -/
def client.Engine {F : Type} (rt : Runtime F) (c : client) (engine : String) :
    CallResult EngineObject :=
  c.call rt "GET" ("/engines/" ++ engine) (fun (_ : Unit) => (.null : JSON F)) none
    rt.decodeEngine

/-- Go `client.ChatCompletion`. The request pointer is dereferenced, so it is not nil; the
payload is `&request`, a pointer to that pointer. -/
def client.ChatCompletion {F : Type} (rt : Runtime F) (c : client)
    (request : ChatCompletionRequest F) : CallResult ChatCompletionResponse :=
  let request := if request.Model = "" then { request with Model := GPT3Dot5Turbo } else request
  let request := { request with Stream := false }
  c.call rt "POST" "/chat/completions" (ChatCompletionRequest.toJSON rt.floatIsZero)
    (some (.pointer (some (.pointer (some (.struct request)))))) rt.decodeChatCompletion

/-- Go `client.ChatCompletionStream`. The payload is `request`, the pointer itself. -/
def client.ChatCompletionStream {F : Type} (rt : Runtime F) (c : client)
    (request : ChatCompletionRequest F) :
    Option (StreamCallResult ChatCompletionStreamResponse) :=
  let request := if request.Model = "" then { request with Model := GPT3Dot5Turbo } else request
  let request := { request with Stream := true }
  c.callStream rt "/chat/completions" (ChatCompletionRequest.toJSON rt.floatIsZero)
    (some (.pointer (some (.struct request)))) rt.unmarshalChatStream

/-- Go `client.CompletionWithEngine`. -/
def client.CompletionWithEngine {F : Type} (rt : Runtime F) (c : client)
    (request : CompletionRequest F) : CallResult (CompletionResponse F) :=
  let request := { request with Stream := false }
  c.call rt "POST" "/completions" (CompletionRequest.toJSON rt.floatIsZero)
    (some (.pointer (some (.pointer (some (.struct request)))))) rt.decodeCompletion

/-- Go `client.Completion`. -/
def client.Completion {F : Type} (rt : Runtime F) (c : client)
    (request : CompletionRequest F) : CallResult (CompletionResponse F) :=
  c.CompletionWithEngine rt request

/-- Go `client.CompletionStreamWithEngine`. -/
def client.CompletionStreamWithEngine {F : Type} (rt : Runtime F) (c : client)
    (request : CompletionRequest F) : Option (StreamCallResult (CompletionResponse F)) :=
  let request := { request with Stream := true }
  c.callStream rt "/completions" (CompletionRequest.toJSON rt.floatIsZero)
    (some (.pointer (some (.pointer (some (.struct request)))))) rt.unmarshalCompletion

/-- Go `client.CompletionStream`. -/
def client.CompletionStream {F : Type} (rt : Runtime F) (c : client)
    (request : CompletionRequest F) : Option (StreamCallResult (CompletionResponse F)) :=
  c.CompletionStreamWithEngine rt request

/-- Go `client.Edits`. The request pointer is only passed on (as `&request`), so it may be
nil: `none`. -/
def client.Edits {F : Type} (rt : Runtime F) (c : client) (request : Option (EditsRequest F)) :
    CallResult EditsResponse :=
  c.call rt "POST" "/edits" EditsRequest.toJSON
    (some (.pointer (some (.pointer (request.map .struct))))) rt.decodeEdits

/-- Go `client.SearchWithEngine`. -/
def client.SearchWithEngine {F : Type} (rt : Runtime F) (c : client) (engine : String)
    (request : Option SearchRequest) : CallResult (SearchResponse F) :=
  c.call rt "POST" ("/engines/" ++ engine ++ "/search") SearchRequest.toJSON
    (some (.pointer (some (.pointer (request.map .struct))))) rt.decodeSearch

/-- Go `client.Search`. -/
def client.Search {F : Type} (rt : Runtime F) (c : client) (request : Option SearchRequest) :
    CallResult (SearchResponse F) :=
  c.SearchWithEngine rt c.defaultEngine request

/-- Go `client.Embeddings`. -/
def client.Embeddings {F : Type} (rt : Runtime F) (c : client)
    (request : Option EmbeddingsRequest) : CallResult (EmbeddingsResponse F) :=
  c.call rt "POST" "/embeddings" EmbeddingsRequest.toJSON
    (some (.pointer (some (.pointer (request.map .struct))))) rt.decodeEmbeddings

/-- Go `client.Image`. The declarations of `ImageRequest` and `ImageResponse` are not in
`model.go`: the two types, the JSON encoding of the one and the decoder of the other are
parameters. -/
def client.Image {F ImageRequest ImageResponse : Type} (rt : Runtime F) (c : client)
    (enc : ImageRequest → JSON F) (decode : Body → Except Error ImageResponse)
    (request : Option ImageRequest) : CallResult ImageResponse :=
  c.call rt "POST" "/images/generations" enc
    (some (.pointer (some (.pointer (request.map .struct))))) decode

/-! ## The console front end (`example/main.go`)

The loop of `main` up to the call of `GetResponse`. `GetResponse` itself has no counterpart
here: its call `client.CompletionStreamWithEngine(ctx, gpt.CompletionRequest{...}, ...)`
passes the request struct by value where `gpt.go` declares the parameter as
`*CompletionRequest`, so the function does not type-check against the package.
-/

/-- Go `strings.Trim(s, cutset)` for a cutset of one ASCII character: that character is
removed from both ends of `s`. -/
def Trim (s : String) (cutset : Char) : String :=
  String.mk (((s.toList.dropWhile (fun x => x == cutset)).reverse.dropWhile
    (fun x => x == cutset)).reverse)

/-- Go `validateQuestion`. -/
def validateQuestion (question : String) : String :=
  let quest := Trim question ' '
  let keywords := ["", "loop", "break", "continue", "cls", "exit", "block"]
  if keywords.any (fun x => quest == x) then "" else quest

/-- What the `switch` in `main` does with a line: it sets `exit`, which ends the loop; it
goes on to the next line; or, in its `default` branch, it calls
`GetResponse(client, ctx, questionParam)`. -/
inductive Action where
  | exit
  | skip
  | ask (question : String)
  deriving DecidableEq, Repr

/-- The `switch` in `main`, on the result of `validateQuestion`. -/
def dispatch (line : String) : Action :=
  let questionParam := validateQuestion line
  if questionParam = "q" then .exit
  else if questionParam = "" then .skip
  else .ask questionParam

/-- The reserved words of the console program. -/
def controlTokens : List String :=
  ["q", "", "loop", "break", "continue", "cls", "exit", "block"]

/-! ## Vocabulary for statements about options -/

/-- The options a caller can build: the six constructors of `options.go`, by name and
argument, and the nil function. (`client` is not exported, so a caller cannot write a
`ClientOption` of its own.) -/
inductive Setter where
  | org (id : String)
  | engine (engine : String)
  | agent (userAgent : String)
  | url (baseURL : String)
  | http (httpClient : Option Nat)
  | timeout (timeout : Int)
  | null
  deriving DecidableEq, Repr

/-- The option a setter stands for. -/
def Setter.option : Setter → ClientOption
  | .org id => WithOrg id
  | .engine e => WithDefaultEngine e
  | .agent u => WithUserAgent u
  | .url b => WithBaseURL b
  | .http p => WithHTTPClient p
  | .timeout t => WithTimeout t
  | .null => .nil

/-- The pointer `WithHTTPClient` stores for its argument. -/
def ClientPtr.ofArg : Option Nat → ClientPtr
  | none => .nil
  | some n => .caller n

/-- The HTTP timeout in effect: that of the `http.Client` the client points to, if it points
to one. -/
def Building.timeout (b : Building) : Option Int :=
  (b.deref b.httpClient).map fun h => h.Timeout

/-- The transport in effect: `Do` of the `http.Client` the client points to, if it points to
one. -/
def Building.transport (b : Building) : Option (HTTPRequest → Except Error HTTPResponse) :=
  (b.deref b.httpClient).map fun h => h.Do

/-- The struct `NewClient` starts from, before any option. -/
def Building.defaults (callerClients : Nat → HTTPClient)
    (transport : HTTPRequest → Except Error HTTPResponse) (apiKey : String) : Building :=
  { baseURL := defaultBaseURL, apiKey := apiKey, userAgent := defaultUserAgent,
    httpClient := .fresh, defaultEngine := DefaultEngine, idOrg := "",
    fresh := { Timeout := defaultTimeoutSeconds * Second, Do := transport },
    callers := callerClients }

/-- The struct built from setters on top of the defaults, `none` when an option panics. -/
def buildWith (callerClients : Nat → HTTPClient)
    (transport : HTTPRequest → Except Error HTTPResponse) (apiKey : String)
    (setters : List Setter) : Option Building :=
  NewClient.build callerClients transport apiKey (setters.map Setter.option)

/-- The settings of a client an option can write. -/
inductive Field where
  | baseURL
  | userAgent
  | defaultEngine
  | idOrg
  | httpClient
  | timeout
  deriving DecidableEq, Repr

/-- Whether the setter writes the setting: each setter writes the one of its name, and
`WithHTTPClient`, which replaces the `http.Client`, writes the timeout in effect as well. The
nil function writes nothing. -/
def Setter.writes : Setter → Field → Bool
  | .org _, f => f == .idOrg
  | .engine _, f => f == .defaultEngine
  | .agent _, f => f == .userAgent
  | .url _, f => f == .baseURL
  | .http _, f => f == .httpClient || f == .timeout
  | .timeout _, f => f == .timeout
  | .null, _ => false

/-- The options of a list of setters applied in order to a struct: the reference against
which the loop of `NewClient` is proved (`buildWith_eq`). -/
def applySetters (b : Building) : List Setter → Option Building
  | [] => some b
  | s :: ss => (s.option.apply b).bind fun b1 => applySetters b1 ss

/-! ## Vocabulary for statements about streams -/

/-- A complete line, as `ReadBytes` returns it: bytes without a newline, then a newline. -/
def IsLine (l : Bytes) : Prop := l.getLast? = some 0x0A ∧ 0x0A ∉ l.dropLast

instance : DecidablePred IsLine := fun l =>
  inferInstanceAs (Decidable (l.getLast? = some 0x0A ∧ 0x0A ∉ l.dropLast))

/-- The line, once trimmed, begins with `data: `. -/
def isDataLine (l : Bytes) : Bool := HasPrefix (TrimSpace l) dataPrefix

/-- What follows `data: ` on the trimmed line. -/
def payload (l : Bytes) : Bytes := TrimPrefix (TrimSpace l) dataPrefix

/-- The line is a data line whose payload begins with `[DONE]`. -/
def isDoneLine (l : Bytes) : Bool := isDataLine l && HasPrefix (payload l) doneSequence

/-- The frame a line carries: the decoded payload of a data line, if it decodes. -/
def frameOf {α : Type} (unmarshal : Bytes → Except Error α) (l : Bytes) : Option α :=
  if isDataLine l then
    match unmarshal (payload l) with
    | .ok a => some a
    | .error _ => none
  else none

/-- The loop goes on past this line: it is not a `[DONE]` line, and if it is a data line its
payload decodes. -/
def Passes {α : Type} (unmarshal : Bytes → Except Error α) (l : Bytes) : Prop :=
  isDoneLine l = false ∧ (isDataLine l = true → (frameOf unmarshal l).isSome = true)

instance {α : Type} (unmarshal : Bytes → Except Error α) : DecidablePred (Passes unmarshal) :=
  fun l => inferInstanceAs (Decidable
    (isDoneLine l = false ∧ (isDataLine l = true → (frameOf unmarshal l).isSome = true)))

/-- The streaming loop read off a list of complete lines followed by an unterminated rest:
the reference against which `streamLoop` is proved (`streamLoop_lines`). -/
def runLines {α : Type} (unmarshal : Bytes → Except Error α) (endErr : Error) :
    List Bytes → List α → StreamResult α
  | [], delivered => ⟨delivered, some endErr⟩
  | l :: ls, delivered =>
    if !isDataLine l then runLines unmarshal endErr ls delivered
    else if HasPrefix (payload l) doneSequence then ⟨delivered, none⟩
    else
      match unmarshal (payload l) with
      | .error err => ⟨delivered, some (.errorf "invalid json stream data" false err)⟩
      | .ok output => runLines unmarshal endErr ls (delivered ++ [output])

/-- A payload that can stand on a `data: ` line and reach the decoder unchanged: it has no
newline, does not begin with `[DONE]`, and ends in an ASCII byte that is not white space (a
JSON object ends in a closing brace). -/
def isFramePayload (p : Bytes) : Bool :=
  !p.contains 0x0A && !HasPrefix p doneSequence &&
    match p.getLast? with
    | some c => decide (c < RuneSelf) && !asciiSpace c
    | none => false

/-- The body of the request is the JSON text of the object with these members. -/
def WireObject {F : Type} (rt : Runtime F) (req : HTTPRequest)
    (members : List (String × JSON F)) : Prop :=
  (JSON.obj members).encode rt.formatFloat rt.quote = .ok req.Body

/-! ## Worked examples: a runtime, a client, two frames -/

instance {ε α : Type} [DecidableEq ε] [DecidableEq α] : DecidableEq (Except ε α)
  | .ok a, .ok b => if h : a = b then isTrue (by rw [h]) else isFalse (fun e => h (Except.ok.inj e))
  | .error a, .error b =>
    if h : a = b then isTrue (by rw [h]) else isFalse (fun e => h (Except.error.inj e))
  | .ok _, .error _ => isFalse (fun e => Except.noConfusion e)
  | .error _, .ok _ => isFalse (fun e => Except.noConfusion e)

/-- A chat frame that carries only an id. -/
def demoFrame (id : String) : ChatCompletionStreamResponse :=
  { ID := id, Object := "", Created := 0, Model := "", Choices := none,
    Usage := { PromptTokens := 0, CompletionTokens := 0, TotalTokens := 0 } }

/-- A frame decoder for the examples: it knows the two payloads with ids 1 and 2 and rejects
everything else. -/
def demoUnmarshal (p : Bytes) : Except Error ChatCompletionStreamResponse :=
  if p = bytesOf "\x7b\"id\":\"1\"\x7d" then .ok (demoFrame "1")
  else if p = bytesOf "\x7b\"id\":\"2\"\x7d" then .ok (demoFrame "2")
  else .error (.other (bytesOf "invalid character"))

/-- A runtime for the examples: numbers are integers, strings are quoted without escapes,
every URL is accepted, error bodies never decode and response bodies are not looked at. -/
def demoRuntime : Runtime Int :=
  { floatIsZero := fun x => x == 0
    formatFloat := fun x => .ok (bytesOf (toString x))
    quote := fun s => bytesOf "\"" ++ bytesOf s ++ bytesOf "\""
    newRequestErr := fun _ _ => none
    unmarshalAPIError := fun _ => .error (.other (bytesOf "invalid character"))
    unmarshalChatStream := demoUnmarshal
    unmarshalCompletion := fun _ => .error (.other (bytesOf "invalid character"))
    decodeEngines := fun _ => .error .EOF
    decodeEngine := fun _ => .error .EOF
    decodeChatCompletion := fun _ => .error .EOF
    decodeCompletion := fun _ => .error .EOF
    decodeEdits := fun _ => .error .EOF
    decodeSearch := fun _ => .error .EOF
    decodeEmbeddings := fun _ => .error .EOF }

/-- A client for the examples, the one `NewClient` builds without options
(`demoClient_built`): whatever it is sent, the server answers with the given status and
body, the connection ending cleanly. -/
def demoClient (status : Int) (body : Bytes) : client :=
  { baseURL := defaultBaseURL
    apiKey := "sk-demo"
    userAgent := defaultUserAgent
    httpClient :=
      { Timeout := defaultTimeoutSeconds * Second
        Do := fun _ => .ok { StatusCode := status, Body := { data := body, err := .EOF } } }
    defaultEngine := DefaultEngine
    idOrg := "" }

/-- A chat request with every field empty but the model and the `Stream` flag. -/
def demoChatRequest (model : String) (stream : Bool) : ChatCompletionRequest Int :=
  { Model := model, Messages := none, Temperature := 0, TopP := 0, N := 0, Stream := stream,
    Stop := none, MaxTokens := 0, PresencePenalty := 0, FrequencyPenalty := 0,
    LogitBias := none, User := "" }

/-- A completion request with every field empty but the model and the `Stream` flag. -/
def demoCompletionRequest (model : String) (stream : Bool) : CompletionRequest Int :=
  { Model := model, Prompt := none, Suffix := "", MaxTokens := 0, Temperature := 0,
    TopP := none, N := none, Stream := stream, LogProbs := none, Echo := false, Stop := none,
    PresencePenalty := 0, FrequencyPenalty := 0, BestOf := 0, LogitBias := none, User := "" }

/-- A client for the examples with an organization id, the one `NewClient` builds with
`WithOrg` (`demoOrgClient_built`). -/
def demoOrgClient : client :=
  { baseURL := defaultBaseURL
    apiKey := "sk-demo"
    userAgent := defaultUserAgent
    httpClient := { Timeout := defaultTimeoutSeconds * Second, Do := fun _ => .error .EOF }
    defaultEngine := DefaultEngine
    idOrg := "org-1" }

/-- The request `demoOrgClient` builds for `GET /engines`. -/
def demoOrgRequest : HTTPRequest :=
  { Method := "GET", URL := "https://api.openai.com/v1/engines",
    Header := [("Authorization", "Bearer sk-demo"), ("Content-Type", "application/json"),
      ("Openai-Organization", "org-1")],
    Body := [] }

/-- A decoder for the examples that does what `json.NewDecoder(body).Decode` does when the
body holds no JSON value: with no bytes at all it returns the error of the body's reader
(`io.EOF` at a clean end), and bytes that are not JSON it rejects as malformed. -/
def demoDecodeEngines (b : Body) : Except Error EnginesResponse :=
  if b.data = [] then .error b.err else .error (.other (bytesOf "invalid character"))

/-- The caller's `http.Client` objects of the examples: each with a timeout of ten seconds. -/
def demoCallerClients : Nat → HTTPClient :=
  fun _ => { Timeout := 10 * Second, Do := fun _ => .error .EOF }

/-! ## Facts about `readBytes` and the loop -/

theorem readBytes_line (b rest : Bytes) (h : 0x0A ∉ b) :
    readBytes (b ++ 0x0A :: rest) = some (b ++ [0x0A], rest) := by
  induction b with
  | nil => simp [readBytes]
  | cons x xs ih =>
    have hx : x ≠ 0x0A := fun e => h (by simp [e])
    have hxs : 0x0A ∉ xs := fun e => h (by simp [e])
    simp [readBytes, hx, ih hxs]

theorem readBytes_none (t : Bytes) (h : 0x0A ∉ t) : readBytes t = none := by
  induction t with
  | nil => simp [readBytes]
  | cons x xs ih =>
    have hx : x ≠ 0x0A := fun e => h (by simp [e])
    have hxs : 0x0A ∉ xs := fun e => h (by simp [e])
    simp [readBytes, hx, ih hxs]

theorem isLine_iff (l : Bytes) : IsLine l ↔ ∃ b : Bytes, l = b ++ [0x0A] ∧ 0x0A ∉ b := by
  constructor
  · rintro ⟨h1, h2⟩
    refine ⟨l.dropLast, ?_, h2⟩
    have hne : l ≠ [] := by
      rintro rfl
      simp at h1
    have h3 := List.dropLast_append_getLast hne
    rw [List.getLast?_eq_getLast l hne] at h1
    rw [Option.some.inj h1] at h3
    exact h3.symm
  · rintro ⟨b, rfl, hb⟩
    exact ⟨by simp, by simpa using hb⟩

theorem readBytes_isLine (l rest : Bytes) (h : IsLine l) :
    readBytes (l ++ rest) = some (l, rest) := by
  obtain ⟨b, rfl, hb⟩ := (isLine_iff l).1 h
  simpa using readBytes_line b rest hb

theorem IsLine.length_pos {l : Bytes} (h : IsLine l) : 0 < l.length := by
  obtain ⟨b, rfl, _⟩ := (isLine_iff l).1 h
  simp

/-- Every byte sequence is a list of complete lines followed by a rest without newline. -/
theorem exists_lines (buf : Bytes) :
    ∃ (lines : List Bytes) (tail : Bytes),
      (∀ l ∈ lines, IsLine l) ∧ 0x0A ∉ tail ∧ buf = lines.flatten ++ tail := by
  induction buf with
  | nil => exact ⟨[], [], by simp, by simp, by simp⟩
  | cons x xs ih =>
    obtain ⟨lines, tail, hl, ht, rfl⟩ := ih
    by_cases hx : x = 0x0A
    · subst hx
      refine ⟨[0x0A] :: lines, tail, ?_, ht, by simp⟩
      intro l hmem
      rcases List.mem_cons.1 hmem with rfl | hmem
      · exact (isLine_iff _).2 ⟨[], by simp, by simp⟩
      · exact hl l hmem
    · cases lines with
      | nil =>
        refine ⟨[], x :: tail, by simp, ?_, by simp⟩
        intro hmem
        rcases List.mem_cons.1 hmem with e | e
        · exact hx e.symm
        · exact ht e
      | cons l ls =>
        refine ⟨(x :: l) :: ls, tail, ?_, ht, by simp⟩
        intro l' hmem
        rcases List.mem_cons.1 hmem with rfl | hmem
        · obtain ⟨b, rfl, hb⟩ := (isLine_iff l).1 (hl l (by simp))
          refine (isLine_iff _).2 ⟨x :: b, by simp, ?_⟩
          intro hmem'
          rcases List.mem_cons.1 hmem' with e | e
          · exact hx e.symm
          · exact hb e
        · exact hl l' (by simp [hmem])

theorem length_le_flatten (lines : List Bytes) (h : ∀ l ∈ lines, IsLine l) :
    lines.length ≤ lines.flatten.length := by
  induction lines with
  | nil => simp
  | cons l ls ih =>
    have h1 := (h l (by simp)).length_pos
    have h2 := ih (fun x hx => h x (by simp [hx]))
    simp only [List.length_cons, List.flatten_cons, List.length_append]
    omega

/-- On complete lines followed by an unterminated rest, the loop with more iterations than
lines computes `runLines`. -/
theorem streamLoop_lines {α : Type} (unmarshal : Bytes → Except Error α) (endErr : Error)
    (tail : Bytes) (ht : 0x0A ∉ tail) :
    ∀ (lines : List Bytes) (fuel : Nat) (delivered : List α),
      (∀ l ∈ lines, IsLine l) → lines.length < fuel →
      streamLoop unmarshal endErr fuel (lines.flatten ++ tail) delivered
        = some (runLines unmarshal endErr lines delivered) := by
  intro lines
  induction lines with
  | nil =>
    intro fuel delivered _ hf
    obtain ⟨n, rfl⟩ : ∃ n, fuel = n + 1 := ⟨fuel - 1, by simp at hf; omega⟩
    simp [streamLoop, runLines, readBytes_none tail ht]
  | cons l ls ih =>
    intro fuel delivered hl hf
    obtain ⟨n, rfl⟩ : ∃ n, fuel = n + 1 := ⟨fuel - 1, by simp at hf; omega⟩
    have hls : ∀ x ∈ ls, IsLine x := fun x hx => hl x (by simp [hx])
    have hn : ls.length < n := by simp at hf; omega
    have hread : readBytes (l ++ (ls.flatten ++ tail)) = some (l, ls.flatten ++ tail) :=
      readBytes_isLine l _ (hl l (by simp))
    simp only [streamLoop, runLines, List.flatten_cons, List.append_assoc, hread, isDataLine,
      payload]
    by_cases h1 : HasPrefix (TrimSpace l) dataPrefix
    · by_cases h2 : HasPrefix (TrimPrefix (TrimSpace l) dataPrefix) doneSequence
      · simp [h1, h2]
      · cases hu : unmarshal (TrimPrefix (TrimSpace l) dataPrefix) with
        | error err => simp [h1, h2]
        | ok output => simp [h1, h2, ih n (delivered ++ [output]) hls hn]
    · simp [h1, ih n delivered hls hn]

theorem readStream_lines {α : Type} (unmarshal : Bytes → Except Error α) (endErr : Error)
    (closed : Nat) (lines : List Bytes) (tail : Bytes)
    (hl : ∀ l ∈ lines, IsLine l) (ht : 0x0A ∉ tail) :
    readStream unmarshal ⟨lines.flatten ++ tail, endErr, closed⟩
      = some (runLines unmarshal endErr lines []) := by
  have := length_le_flatten lines hl
  exact streamLoop_lines unmarshal endErr tail ht lines _ [] hl
    (by simp only [List.length_append]; omega)

/-- The streaming loop always returns: the iteration budget of `readStream` never runs out. -/
theorem readStream_total {α : Type} (unmarshal : Bytes → Except Error α) (body : Body) :
    ∃ r, readStream unmarshal body = some r := by
  obtain ⟨lines, tail, hl, ht, hd⟩ := exists_lines body.data
  obtain ⟨data, err, closed⟩ := body
  simp only at hd
  subst hd
  exact ⟨_, readStream_lines unmarshal err closed lines tail hl ht⟩

theorem hasPrefix_iff (s pre : Bytes) : HasPrefix s pre = true ↔ pre <+: s := by
  simp only [HasPrefix, decide_eq_true_eq]
  constructor
  · rintro ⟨_, h⟩
    exact List.prefix_iff_eq_take.2 h.symm
  · intro h
    exact ⟨h.length_le, (List.prefix_iff_eq_take.1 h).symm⟩

theorem isDoneLine_iff (l : Bytes) :
    isDoneLine l = true ↔ HasPrefix (TrimSpace l) (dataPrefix ++ doneSequence) = true := by
  simp only [isDoneLine, isDataLine, payload, TrimPrefix, Bool.and_eq_true]
  constructor
  · rintro ⟨h1, h2⟩
    rw [if_pos h1] at h2
    rw [hasPrefix_iff] at h1 h2 ⊢
    obtain ⟨t, ht⟩ := h1
    rw [← ht] at h2 ⊢
    rw [List.drop_left] at h2
    exact (List.prefix_append_right_inj _).2 h2
  · intro h
    rw [hasPrefix_iff] at h
    have h1 : HasPrefix (TrimSpace l) dataPrefix = true :=
      (hasPrefix_iff _ _).2 ((List.prefix_append _ _).trans h)
    refine ⟨h1, ?_⟩
    rw [if_pos h1, hasPrefix_iff]
    obtain ⟨t, ht⟩ := h
    rw [← ht, List.append_assoc, List.drop_left]
    exact List.prefix_append _ _

theorem runLines_pass {α : Type} (unmarshal : Bytes → Except Error α) (endErr : Error)
    (l : Bytes) (ls : List Bytes) (delivered : List α) (h : Passes unmarshal l) :
    runLines unmarshal endErr (l :: ls) delivered
      = runLines unmarshal endErr ls (delivered ++ (frameOf unmarshal l).toList) := by
  obtain ⟨h1, h2⟩ := h
  by_cases hd : isDataLine l = true
  · have h3 : HasPrefix (payload l) doneSequence = false := by
      simpa [isDoneLine, hd] using h1
    have h4 := h2 hd
    simp only [frameOf, hd, if_true] at h4 ⊢
    cases hu : unmarshal (payload l) with
    | error err => simp [hu] at h4
    | ok output => simp [runLines, hd, h3, hu]
  · simp [runLines, frameOf, hd]

theorem runLines_passes {α : Type} (unmarshal : Bytes → Except Error α) (endErr : Error)
    (post : List Bytes) :
    ∀ (pre : List Bytes) (delivered : List α), (∀ x ∈ pre, Passes unmarshal x) →
      runLines unmarshal endErr (pre ++ post) delivered
        = runLines unmarshal endErr post (delivered ++ pre.filterMap (frameOf unmarshal)) := by
  intro pre
  induction pre with
  | nil => intro delivered _; simp
  | cons l ls ih =>
    intro delivered h
    rw [List.cons_append, runLines_pass unmarshal endErr l _ delivered (h l (by simp)),
      ih _ (fun x hx => h x (by simp [hx]))]
    cases hf : frameOf unmarshal l <;> simp [List.filterMap_cons, hf]

/-- If the loop over complete lines returns `nil`, it stopped at a `[DONE]` line that every
earlier line let it reach. -/
theorem runLines_success {α : Type} (unmarshal : Bytes → Except Error α) (endErr : Error) :
    ∀ (lines : List Bytes) (delivered : List α),
      (runLines unmarshal endErr lines delivered).err = none →
      ∃ pre l post, lines = pre ++ l :: post ∧ (∀ x ∈ pre, Passes unmarshal x)
        ∧ isDoneLine l = true := by
  intro lines
  induction lines with
  | nil => intro delivered h; simp [runLines] at h
  | cons l ls ih =>
    intro delivered h
    by_cases hdone : isDoneLine l = true
    · exact ⟨[], l, ls, by simp, by simp, hdone⟩
    · have hdone' : isDoneLine l = false := by simpa using hdone
      by_cases hd : isDataLine l = true
      · have h3 : HasPrefix (payload l) doneSequence = false := by
          simpa [isDoneLine, hd] using hdone'
        cases hu : unmarshal (payload l) with
        | error err => simp [runLines, hd, h3, hu] at h
        | ok output =>
          have hp : Passes unmarshal l := ⟨hdone', fun _ => by simp [frameOf, hd, hu]⟩
          rw [runLines_pass unmarshal endErr l ls delivered hp] at h
          obtain ⟨pre, l', post, rfl, hpre, hl'⟩ := ih _ h
          refine ⟨l :: pre, l', post, by simp, ?_, hl'⟩
          intro x hx
          rcases List.mem_cons.1 hx with rfl | hx
          · exact hp
          · exact hpre x hx
      · have hp : Passes unmarshal l := ⟨hdone', fun h' => absurd h' hd⟩
        rw [runLines_pass unmarshal endErr l ls delivered hp] at h
        obtain ⟨pre, l', post, rfl, hpre, hl'⟩ := ih _ h
        refine ⟨l :: pre, l', post, by simp, ?_, hl'⟩
        intro x hx
        rcases List.mem_cons.1 hx with rfl | hx
        · exact hp
        · exact hpre x hx

theorem runLines_done {α : Type} (unmarshal : Bytes → Except Error α) (endErr : Error)
    (l : Bytes) (ls : List Bytes) (delivered : List α) (h : isDoneLine l = true) :
    runLines unmarshal endErr (l :: ls) delivered = ⟨delivered, none⟩ := by
  simp only [isDoneLine, Bool.and_eq_true] at h
  simp [runLines, h.1, h.2]

theorem dataPrefix_eq : dataPrefix = [100, 97, 116, 97, 58, 32] := by decide

theorem doneSequence_eq : doneSequence = [91, 68, 79, 78, 69, 93] := by decide

/-- The fast path of `TrimSpace` on a line `data: <payload>\n` whose payload ends in an ASCII
byte that is not white space: only the newline is removed. -/
theorem trimSpace_data_line (q : Bytes) (c : Nat) (hc : c < RuneSelf)
    (hs : asciiSpace c = false) :
    TrimSpace (dataPrefix ++ (q ++ [c]) ++ [0x0A]) = dataPrefix ++ (q ++ [c]) := by
  have hc' : ¬ 128 ≤ c := by simpa [RuneSelf] using hc
  have hs' : ¬ (c = 9 ∨ c = 10 ∨ c = 11 ∨ c = 12 ∨ c = 13 ∨ c = 32) := by
    simpa [asciiSpace] using hs
  simp [TrimSpace, dataPrefix_eq, List.dropWhile_cons, asciiSpace, RuneSelf, hs', hc']


/-! ## The streaming decoder: termination, order, failure -/

/-- C1, as the code has it: the streaming loop of `ChatCompletionStream` and
`CompletionStreamWithEngine` returns `nil` exactly when the body holds a complete line whose
trimmed content begins with `data: [DONE]`, reached through complete lines each of which is
neither such a line nor a data line with an undecodable payload. -/
theorem stream_succeeds_iff_done_line {α : Type} (unmarshal : Bytes → Except Error α)
    (body : Body) :
    (∃ frames, readStream unmarshal body = some ⟨frames, none⟩) ↔
      ∃ (lines : List Bytes) (l rest : Bytes),
        body.data = lines.flatten ++ l ++ rest ∧
        (∀ x ∈ lines, IsLine x ∧ Passes unmarshal x) ∧
        IsLine l ∧ HasPrefix (TrimSpace l) (dataPrefix ++ doneSequence) = true := by
  obtain ⟨data, endErr, closed⟩ := body
  constructor
  · rintro ⟨frames, h⟩
    obtain ⟨lines, tail, hl, ht, hd⟩ := exists_lines data
    subst hd
    rw [readStream_lines unmarshal endErr closed lines tail hl ht] at h
    have herr : (runLines unmarshal endErr lines []).err = none := by
      rw [Option.some.inj h]
    obtain ⟨pre, l, post, rfl, hpre, hdone⟩ := runLines_success unmarshal endErr lines [] herr
    refine ⟨pre, l, post.flatten ++ tail, by simp, ?_, hl l (by simp), (isDoneLine_iff l).1 hdone⟩
    intro x hx
    exact ⟨hl x (by simp [hx]), hpre x hx⟩
  · rintro ⟨lines, l, rest, hd, hlines, hl, hdone⟩
    obtain ⟨post, tail, hpost, ht, hrest⟩ := exists_lines rest
    simp only at hd
    have hdata : data = (lines ++ l :: post).flatten ++ tail := by
      rw [hd, hrest]
      simp
    have hall : ∀ x ∈ lines ++ l :: post, IsLine x := by
      intro x hx
      rcases List.mem_append.1 hx with hx | hx
      · exact (hlines x hx).1
      · rcases List.mem_cons.1 hx with rfl | hx
        · exact hl
        · exact hpost x hx
    refine ⟨[] ++ lines.filterMap (frameOf unmarshal), ?_⟩
    rw [hdata, readStream_lines unmarshal endErr closed _ tail hall ht,
      runLines_passes unmarshal endErr _ lines [] (fun x hx => (hlines x hx).2),
      runLines_done unmarshal endErr l post _ ((isDoneLine_iff l).2 hdone)]

/-- C1, counterexample: a chat stream whose only line is `data: [DONE] trailing` ends with a
`nil` error, although neither the trimmed line is `data: [DONE]` nor its payload `[DONE]`. -/
theorem done_with_trailing_text_ends_stream :
    ((demoClient 200 (bytesOf "data: [DONE] trailing\n")).ChatCompletionStream demoRuntime
        (demoChatRequest "" false)).map (fun r => r.err) = some none ∧
      readStream demoUnmarshal { data := bytesOf "data: [DONE] trailing\n", err := .EOF }
        = some ⟨[], none⟩ ∧
      TrimSpace (bytesOf "data: [DONE] trailing\n") ≠ bytesOf "data: [DONE]" ∧
      payload (bytesOf "data: [DONE] trailing\n") ≠ doneSequence := by
  decide

theorem isLine_data_line (p : Bytes) (h : p.contains 0x0A = false) :
    IsLine (dataPrefix ++ p ++ [0x0A]) := by
  refine (isLine_iff _).2 ⟨dataPrefix ++ p, rfl, ?_⟩
  have hp : 0x0A ∉ p := by simpa using h
  simp [dataPrefix_eq, hp]

/-- A line `data: <payload>\n` with a frame payload is a data line carrying that payload. -/
theorem payload_data_line (p : Bytes) (h : isFramePayload p = true) :
    IsLine (dataPrefix ++ p ++ [0x0A]) ∧ isDataLine (dataPrefix ++ p ++ [0x0A]) = true ∧
      payload (dataPrefix ++ p ++ [0x0A]) = p ∧ isDoneLine (dataPrefix ++ p ++ [0x0A]) = false := by
  simp only [isFramePayload, Bool.and_eq_true, Bool.not_eq_true'] at h
  obtain ⟨⟨hnl, hdone⟩, hlast⟩ := h
  have hne : p ≠ [] := by
    rintro rfl
    simp at hlast
  obtain ⟨q, c, rfl⟩ : ∃ q c, p = q ++ [c] :=
    ⟨p.dropLast, p.getLast hne, (List.dropLast_append_getLast hne).symm⟩
  simp at hlast
  have htrim := trimSpace_data_line q c hlast.1 hlast.2
  have hdata : isDataLine (dataPrefix ++ (q ++ [c]) ++ [0x0A]) = true := by
    rw [isDataLine, htrim, hasPrefix_iff]
    exact List.prefix_append _ _
  have hpay : payload (dataPrefix ++ (q ++ [c]) ++ [0x0A]) = q ++ [c] := by
    have h1 : HasPrefix (dataPrefix ++ (q ++ [c])) dataPrefix = true :=
      (hasPrefix_iff _ _).2 (List.prefix_append _ _)
    rw [payload, htrim, TrimPrefix, if_pos h1, List.drop_left]
  refine ⟨isLine_data_line _ hnl, hdata, hpay, ?_⟩
  rw [isDoneLine, hpay, hdone, Bool.and_false]

/-- C6: a stream of `n` lines `data: <payload>`, each payload a frame payload that decodes,
followed by the line `data: [DONE]`, makes the loop call `onData` exactly `n` times, with the
decoded frames in wire order, and return `nil`. -/
theorem frames_delivered_in_wire_order {α : Type} (unmarshal : Bytes → Except Error α)
    (endErr : Error) (closed : Nat) (frames : List (Bytes × α))
    (h : ∀ pf ∈ frames, isFramePayload pf.1 = true ∧ unmarshal pf.1 = .ok pf.2) :
    readStream unmarshal
        ⟨(frames.map (fun pf => dataPrefix ++ pf.1 ++ [0x0A])).flatten
          ++ (dataPrefix ++ doneSequence ++ [0x0A]), endErr, closed⟩
      = some ⟨frames.map Prod.snd, none⟩ := by
  have hdone : IsLine (dataPrefix ++ doneSequence ++ [0x0A]) ∧
      isDoneLine (dataPrefix ++ doneSequence ++ [0x0A]) = true := by decide
  have hpass : ∀ x ∈ frames.map (fun pf => dataPrefix ++ pf.1 ++ [0x0A]),
      IsLine x ∧ Passes unmarshal x := by
    intro x hx
    obtain ⟨pf, hpf, rfl⟩ := List.mem_map.1 hx
    obtain ⟨h1, h2, h3, h4⟩ := payload_data_line pf.1 (h pf hpf).1
    refine ⟨h1, h4, fun _ => ?_⟩
    rw [frameOf, if_pos h2, h3, (h pf hpf).2]
    rfl
  have hframes : (frames.map (fun pf => dataPrefix ++ pf.1 ++ [0x0A])).filterMap
      (frameOf unmarshal) = frames.map Prod.snd := by
    rw [List.filterMap_map]
    have : ∀ pf ∈ frames, (frameOf unmarshal ∘ fun pf => dataPrefix ++ pf.1 ++ [0x0A]) pf
        = some pf.2 := by
      intro pf hpf
      obtain ⟨_, h2, h3, _⟩ := payload_data_line pf.1 (h pf hpf).1
      rw [Function.comp_apply, frameOf, if_pos h2, h3, (h pf hpf).2]
    clear hpass h
    induction frames with
    | nil => rfl
    | cons a as ih =>
      rw [List.filterMap_cons, this a (by simp)]
      simp only [List.map_cons, List.cons.injEq, true_and]
      exact ih (fun pf hpf => this pf (by simp [hpf]))
  generalize frames.map (fun pf => dataPrefix ++ pf.1 ++ [0x0A]) = lines at hpass hframes ⊢
  have hall : ∀ x ∈ lines ++ [dataPrefix ++ doneSequence ++ [0x0A]], IsLine x := by
    intro x hx
    rcases List.mem_append.1 hx with hx | hx
    · exact (hpass x hx).1
    · rw [List.mem_singleton.1 hx]
      exact hdone.1
  have hdata : lines.flatten ++ (dataPrefix ++ doneSequence ++ [0x0A])
      = (lines ++ [dataPrefix ++ doneSequence ++ [0x0A]]).flatten ++ [] := by
    simp
  rw [hdata, readStream_lines unmarshal endErr closed _ [] hall (by simp),
    runLines_passes unmarshal endErr _ lines [] (fun x hx => (hpass x hx).2),
    runLines_done unmarshal endErr _ [] _ hdone.2, hframes]
  rfl

/-- C6, worked example: the frames with ids 1 and 2 and then `[DONE]` give exactly two
callbacks, in that order, and a `nil` error. -/
theorem frames_delivered_in_wire_order_witness :
    readStream demoUnmarshal
        ⟨bytesOf "data: \x7b\"id\":\"1\"\x7d\ndata: \x7b\"id\":\"2\"\x7d\ndata: [DONE]\n", .EOF, 0⟩
      = some ⟨[demoFrame "1", demoFrame "2"], none⟩ :=
  frames_delivered_in_wire_order demoUnmarshal .EOF 0
    [(bytesOf "\x7b\"id\":\"1\"\x7d", demoFrame "1"), (bytesOf "\x7b\"id\":\"2\"\x7d", demoFrame "2")]
    (by decide)

/-- C7, as the code has it: when the lines before line `k` let the loop pass (none of them
is a data line whose payload begins with `[DONE]` or does not decode) and line `k` is a data
line whose payload does not begin with `[DONE]` and does not decode, the loop returns the
error `invalid json stream data: <cause>`, having called `onData` once for each decodable
data line before `k`, in order, and for nothing else, whatever follows line `k`. -/
theorem malformed_frame_aborts_stream {α : Type} (unmarshal : Bytes → Except Error α)
    (endErr : Error) (closed : Nat) (lines : List Bytes) (bad rest : Bytes) (cause : Error)
    (hlines : ∀ x ∈ lines, IsLine x ∧ Passes unmarshal x)
    (hbad : IsLine bad) (hdata : isDataLine bad = true)
    (hnot : HasPrefix (payload bad) doneSequence = false)
    (hcause : unmarshal (payload bad) = .error cause) :
    ∃ err, readStream unmarshal ⟨lines.flatten ++ bad ++ rest, endErr, closed⟩
        = some ⟨lines.filterMap (frameOf unmarshal), some err⟩ ∧
      err = .errorf "invalid json stream data" false cause ∧
      bytesOf "invalid json stream data" <+: err.text := by
  obtain ⟨post, tail, hpost, ht, hrest⟩ := exists_lines rest
  have hdata' : lines.flatten ++ bad ++ rest = (lines ++ bad :: post).flatten ++ tail := by
    rw [hrest]
    simp
  have hall : ∀ x ∈ lines ++ bad :: post, IsLine x := by
    intro x hx
    rcases List.mem_append.1 hx with hx | hx
    · exact (hlines x hx).1
    · rcases List.mem_cons.1 hx with rfl | hx
      · exact hbad
      · exact hpost x hx
  refine ⟨.errorf "invalid json stream data" false cause, ?_, rfl, ?_⟩
  · rw [hdata', readStream_lines unmarshal endErr closed _ tail hall ht,
      runLines_passes unmarshal endErr _ lines [] (fun x hx => (hlines x hx).2)]
    simp [runLines, hdata, hnot, hcause]
  · simp only [Error.text, List.append_assoc]
    exact List.prefix_append _ _

/-- C7, worked example: after the frame with id 1, the payload `oops` aborts the call; the
frame with id 2 behind it is never delivered. -/
theorem malformed_frame_aborts_stream_witness :
    ∃ err, readStream demoUnmarshal
        ⟨[bytesOf "data: \x7b\"id\":\"1\"\x7d\n", bytesOf ": ping\n"].flatten
          ++ bytesOf "data: oops\n" ++ bytesOf "data: \x7b\"id\":\"2\"\x7d\ndata: [DONE]\n", .EOF, 0⟩
        = some ⟨[bytesOf "data: \x7b\"id\":\"1\"\x7d\n", bytesOf ": ping\n"].filterMap
            (frameOf demoUnmarshal), some err⟩ ∧
      err = .errorf "invalid json stream data" false (.other (bytesOf "invalid character")) ∧
      bytesOf "invalid json stream data" <+: err.text :=
  malformed_frame_aborts_stream demoUnmarshal .EOF 0
    [bytesOf "data: \x7b\"id\":\"1\"\x7d\n", bytesOf ": ping\n"] (bytesOf "data: oops\n")
    (bytesOf "data: \x7b\"id\":\"2\"\x7d\ndata: [DONE]\n") (.other (bytesOf "invalid character"))
    (by decide) (by decide) (by decide) (by decide) (by decide)

/-- C7, counterexample: in the chat stream made of the frame with id 1, the line
`data: [DONE]oops` and the frame with id 2, the first payload that does not decode is
`[DONE]oops`, on the second line, and no `[DONE]` comes before it; yet the call delivers the
first frame and returns `nil`, not an error: the payload begins with `[DONE]` and is never
handed to the decoder. -/
theorem undecodable_payload_behind_done_prefix_ends_stream :
    readStream demoUnmarshal
        { data := bytesOf "data: \x7b\"id\":\"1\"\x7d\ndata: [DONE]oops\ndata: \x7b\"id\":\"2\"\x7d\n",
          err := .EOF }
      = some ⟨[demoFrame "1"], none⟩ ∧
    ((demoClient 200
          (bytesOf "data: \x7b\"id\":\"1\"\x7d\ndata: [DONE]oops\ndata: \x7b\"id\":\"2\"\x7d\n")).ChatCompletionStream
        demoRuntime (demoChatRequest "" false)).map (fun r => (r.delivered, r.err))
      = some ([demoFrame "1"], none) ∧
    isDataLine (bytesOf "data: \x7b\"id\":\"1\"\x7d\n") = true ∧
    payload (bytesOf "data: \x7b\"id\":\"1\"\x7d\n") ≠ doneSequence ∧
    demoUnmarshal (payload (bytesOf "data: \x7b\"id\":\"1\"\x7d\n")) = .ok (demoFrame "1") ∧
    isDataLine (bytesOf "data: [DONE]oops\n") = true ∧
    payload (bytesOf "data: [DONE]oops\n") = bytesOf "[DONE]oops" ∧
    payload (bytesOf "data: [DONE]oops\n") ≠ doneSequence ∧
    demoUnmarshal (payload (bytesOf "data: [DONE]oops\n"))
      = .error (.other (bytesOf "invalid character")) := by
  decide

theorem runLines_skip {α : Type} (unmarshal : Bytes → Except Error α) (endErr : Error)
    (l : Bytes) (post : List Bytes) (hskip : isDataLine l = false) :
    ∀ (pre : List Bytes) (delivered : List α),
      runLines unmarshal endErr (pre ++ l :: post) delivered
        = runLines unmarshal endErr (pre ++ post) delivered := by
  intro pre
  induction pre with
  | nil =>
    intro delivered
    simp [runLines, hskip]
  | cons x xs ih =>
    intro delivered
    simp only [List.cons_append, runLines]
    by_cases h1 : isDataLine x = true
    · by_cases h2 : HasPrefix (payload x) doneSequence = true
      · simp [h1, h2]
      · cases hu : unmarshal (payload x) with
        | error err => simp [h1, h2]
        | ok output => simp [h1, h2, ih]
    · simp [h1, ih]

/-- C8, as the code has it: a stream that ends without a complete line whose trimmed content
begins with `data: [DONE]` never returns `nil`; and when every line lets the loop pass, so
that the loop reads to the end of the input, it returns the reader's error (`io.EOF` for a
closed connection) after delivering every frame. An unterminated last line is not looked
at. -/
theorem stream_without_done_fails {α : Type} (unmarshal : Bytes → Except Error α)
    (endErr : Error) (closed : Nat) (lines : List Bytes) (tail : Bytes)
    (hl : ∀ x ∈ lines, IsLine x) (ht : 0x0A ∉ tail)
    (hnone : ∀ x ∈ lines, isDoneLine x = false) :
    (∃ delivered err, readStream unmarshal ⟨lines.flatten ++ tail, endErr, closed⟩
        = some ⟨delivered, some err⟩) ∧
      ((∀ x ∈ lines, Passes unmarshal x) →
        readStream unmarshal ⟨lines.flatten ++ tail, endErr, closed⟩
          = some ⟨lines.filterMap (frameOf unmarshal), some endErr⟩) := by
  rw [readStream_lines unmarshal endErr closed lines tail hl ht]
  constructor
  · cases herr : (runLines unmarshal endErr lines []).err with
    | none =>
      obtain ⟨pre, l, post, rfl, _, hdone⟩ := runLines_success unmarshal endErr lines [] herr
      have := hnone l (by simp)
      rw [hdone] at this
      exact absurd this (by decide)
    | some err =>
      refine ⟨(runLines unmarshal endErr lines []).delivered, err, ?_⟩
      rw [← herr]
  · intro hpass
    have := runLines_passes unmarshal endErr [] lines [] hpass
    rw [List.append_nil] at this
    rw [this]
    simp [runLines]

/-- C8, worked example: one frame is delivered, the connection closes, the call fails with
`io.EOF`. -/
theorem stream_without_done_fails_witness :
    (∃ delivered err, readStream demoUnmarshal
        ⟨[bytesOf "data: \x7b\"id\":\"1\"\x7d\n"].flatten ++ [], .EOF, 0⟩
        = some ⟨delivered, some err⟩) ∧
      ((∀ x ∈ [bytesOf "data: \x7b\"id\":\"1\"\x7d\n"], Passes demoUnmarshal x) →
        readStream demoUnmarshal ⟨[bytesOf "data: \x7b\"id\":\"1\"\x7d\n"].flatten ++ [], .EOF, 0⟩
          = some ⟨[bytesOf "data: \x7b\"id\":\"1\"\x7d\n"].filterMap (frameOf demoUnmarshal),
              some .EOF⟩) :=
  stream_without_done_fails demoUnmarshal .EOF 0 [bytesOf "data: \x7b\"id\":\"1\"\x7d\n"] []
    (by decide) (by decide) (by decide)

/-- C8, counterexample: the chat stream made of the frame with id 1 and the line
`data: [DONE]!` ends, the connection closing, without a `data: [DONE]` line: neither line is
`data: [DONE]` once trimmed, and neither payload is `[DONE]`. Yet the call returns `nil`,
not a read error. -/
theorem stream_without_done_line_returns_nil :
    readStream demoUnmarshal
        { data := bytesOf "data: \x7b\"id\":\"1\"\x7d\ndata: [DONE]!\n", err := .EOF }
      = some ⟨[demoFrame "1"], none⟩ ∧
    ((demoClient 200 (bytesOf "data: \x7b\"id\":\"1\"\x7d\ndata: [DONE]!\n")).ChatCompletionStream
        demoRuntime (demoChatRequest "" false)).map (fun r => (r.delivered, r.err))
      = some ([demoFrame "1"], none) ∧
    TrimSpace (bytesOf "data: \x7b\"id\":\"1\"\x7d\n") ≠ bytesOf "data: [DONE]" ∧
    TrimSpace (bytesOf "data: [DONE]!\n") ≠ bytesOf "data: [DONE]" ∧
    payload (bytesOf "data: \x7b\"id\":\"1\"\x7d\n") ≠ doneSequence ∧
    payload (bytesOf "data: [DONE]!\n") ≠ doneSequence ∧
    bytesOf "data: \x7b\"id\":\"1\"\x7d\ndata: [DONE]!\n"
      = [bytesOf "data: \x7b\"id\":\"1\"\x7d\n", bytesOf "data: [DONE]!\n"].flatten := by
  decide

/-- C9: a complete line whose trimmed content does not begin with `data: ` changes nothing:
the stream with the line, put after any number of complete lines, and the stream without it
give the same callbacks and the same returned error. -/
theorem non_data_line_is_skipped {α : Type} (unmarshal : Bytes → Except Error α)
    (endErr : Error) (closed : Nat) (lines : List Bytes) (l rest : Bytes)
    (hlines : ∀ x ∈ lines, IsLine x) (hl : IsLine l)
    (hskip : HasPrefix (TrimSpace l) dataPrefix = false) :
    ∃ r, readStream unmarshal ⟨lines.flatten ++ l ++ rest, endErr, closed⟩ = some r ∧
      readStream unmarshal ⟨lines.flatten ++ rest, endErr, closed⟩ = some r := by
  obtain ⟨post, tail, hpost, ht, hrest⟩ := exists_lines rest
  have h1 : lines.flatten ++ l ++ rest = (lines ++ l :: post).flatten ++ tail := by
    rw [hrest]
    simp
  have h2 : lines.flatten ++ rest = (lines ++ post).flatten ++ tail := by
    rw [hrest]
    simp
  have hall1 : ∀ x ∈ lines ++ l :: post, IsLine x := by
    intro x hx
    rcases List.mem_append.1 hx with hx | hx
    · exact hlines x hx
    · rcases List.mem_cons.1 hx with rfl | hx
      · exact hl
      · exact hpost x hx
  have hall2 : ∀ x ∈ lines ++ post, IsLine x := by
    intro x hx
    rcases List.mem_append.1 hx with hx | hx
    · exact hlines x hx
    · exact hpost x hx
  refine ⟨runLines unmarshal endErr (lines ++ post) [], ?_, ?_⟩
  · rw [h1, readStream_lines unmarshal endErr closed _ tail hall1 ht,
      runLines_skip unmarshal endErr l post hskip lines []]
  · rw [h2, readStream_lines unmarshal endErr closed _ tail hall2 ht]

/-- C9, worked examples: a blank line, a comment, an `event:` line and a bare `data:`, each
put between two frames, leave the two callbacks and the `nil` error as they are. -/
theorem non_data_line_is_skipped_witness :
    (∃ r, readStream demoUnmarshal
          ⟨[bytesOf "data: \x7b\"id\":\"1\"\x7d\n"].flatten ++ bytesOf "\n"
            ++ bytesOf "data: \x7b\"id\":\"2\"\x7d\ndata: [DONE]\n", .EOF, 0⟩ = some r ∧
        readStream demoUnmarshal
          ⟨[bytesOf "data: \x7b\"id\":\"1\"\x7d\n"].flatten
            ++ bytesOf "data: \x7b\"id\":\"2\"\x7d\ndata: [DONE]\n", .EOF, 0⟩ = some r) ∧
    (∃ r, readStream demoUnmarshal
          ⟨[bytesOf "data: \x7b\"id\":\"1\"\x7d\n"].flatten ++ bytesOf ": keep-alive\n"
            ++ bytesOf "data: \x7b\"id\":\"2\"\x7d\ndata: [DONE]\n", .EOF, 0⟩ = some r ∧
        readStream demoUnmarshal
          ⟨[bytesOf "data: \x7b\"id\":\"1\"\x7d\n"].flatten
            ++ bytesOf "data: \x7b\"id\":\"2\"\x7d\ndata: [DONE]\n", .EOF, 0⟩ = some r) ∧
    (∃ r, readStream demoUnmarshal
          ⟨[bytesOf "data: \x7b\"id\":\"1\"\x7d\n"].flatten ++ bytesOf "event: ping\r\n"
            ++ bytesOf "data: \x7b\"id\":\"2\"\x7d\ndata: [DONE]\n", .EOF, 0⟩ = some r ∧
        readStream demoUnmarshal
          ⟨[bytesOf "data: \x7b\"id\":\"1\"\x7d\n"].flatten
            ++ bytesOf "data: \x7b\"id\":\"2\"\x7d\ndata: [DONE]\n", .EOF, 0⟩ = some r) ∧
    (∃ r, readStream demoUnmarshal
          ⟨[bytesOf "data: \x7b\"id\":\"1\"\x7d\n"].flatten ++ bytesOf "data: \n"
            ++ bytesOf "data: \x7b\"id\":\"2\"\x7d\ndata: [DONE]\n", .EOF, 0⟩ = some r ∧
        readStream demoUnmarshal
          ⟨[bytesOf "data: \x7b\"id\":\"1\"\x7d\n"].flatten
            ++ bytesOf "data: \x7b\"id\":\"2\"\x7d\ndata: [DONE]\n", .EOF, 0⟩ = some r) :=
  ⟨non_data_line_is_skipped demoUnmarshal .EOF 0 [bytesOf "data: \x7b\"id\":\"1\"\x7d\n"]
      (bytesOf "\n") (bytesOf "data: \x7b\"id\":\"2\"\x7d\ndata: [DONE]\n")
      (by decide) (by decide) (by decide),
    non_data_line_is_skipped demoUnmarshal .EOF 0 [bytesOf "data: \x7b\"id\":\"1\"\x7d\n"]
      (bytesOf ": keep-alive\n") (bytesOf "data: \x7b\"id\":\"2\"\x7d\ndata: [DONE]\n")
      (by decide) (by decide) (by decide),
    non_data_line_is_skipped demoUnmarshal .EOF 0 [bytesOf "data: \x7b\"id\":\"1\"\x7d\n"]
      (bytesOf "event: ping\r\n") (bytesOf "data: \x7b\"id\":\"2\"\x7d\ndata: [DONE]\n")
      (by decide) (by decide) (by decide),
    non_data_line_is_skipped demoUnmarshal .EOF 0 [bytesOf "data: \x7b\"id\":\"1\"\x7d\n"]
      (bytesOf "data: \n") (bytesOf "data: \x7b\"id\":\"2\"\x7d\ndata: [DONE]\n")
      (by decide) (by decide) (by decide)⟩

/-! ## The entry points on a response -/

/-- On a success status, `performRequest` hands the response over untouched. -/
theorem performRequest_success {F : Type} (rt : Runtime F) (c : client) (req : HTTPRequest)
    (rsp : HTTPResponse) (hdo : c.httpClient.Do req = .ok rsp)
    (hok : 200 ≤ rsp.StatusCode ∧ rsp.StatusCode < 300) :
    c.performRequest rt req = (.ok rsp, some rsp.Body) := by
  simp [client.performRequest, hdo, checkForSuccess, hok]

/-- Once the request is built and answered with a success status, a streaming entry point
is the read loop on the response body: it delivers what the loop delivers and returns what
the loop returns, and it always returns. -/
theorem callStream_on_response {S F α : Type} (rt : Runtime F) (c : client) (path : String)
    (enc : S → JSON F) (payload : Option (GoValue S)) (unmarshal : Bytes → Except Error α)
    (req : HTTPRequest) (rsp : HTTPResponse)
    (hreq : c.newRequest rt "POST" path enc payload = .ok req)
    (hdo : c.httpClient.Do req = .ok rsp)
    (hok : 200 ≤ rsp.StatusCode ∧ rsp.StatusCode < 300) :
    ∃ r, readStream unmarshal rsp.Body = some r ∧
      c.callStream rt path enc payload unmarshal
        = some ⟨some req, some rsp.Body.Close, r.delivered, r.err⟩ := by
  obtain ⟨r, hr⟩ := readStream_total unmarshal rsp.Body
  refine ⟨r, hr, ?_⟩
  simp [client.callStream, hreq, performRequest_success rt c req rsp hdo hok, hr]

/-- Once the request is built and answered with a success status, a non-streaming entry
point is `getResponseObject` on the response. -/
theorem call_on_response {S F ρ : Type} (rt : Runtime F) (c : client) (method path : String)
    (enc : S → JSON F) (payload : Option (GoValue S)) (decode : Body → Except Error ρ)
    (req : HTTPRequest) (rsp : HTTPResponse)
    (hreq : c.newRequest rt method path enc payload = .ok req)
    (hdo : c.httpClient.Do req = .ok rsp)
    (hok : 200 ≤ rsp.StatusCode ∧ rsp.StatusCode < 300) :
    c.call rt method path enc payload decode
      = ⟨some req, some (getResponseObject decode rsp).2.Body, (getResponseObject decode rsp).1⟩ := by
  simp [client.call, hreq, performRequest_success rt c req rsp hdo hok]

/-! ## What is sent -/

theorem call_sent {S F ρ : Type} (rt : Runtime F) (c : client) (method path : String)
    (enc : S → JSON F) (payload : Option (GoValue S)) (decode : Body → Except Error ρ)
    (req : HTTPRequest) (h : (c.call rt method path enc payload decode).sent = some req) :
    c.newRequest rt method path enc payload = .ok req := by
  unfold client.call at h
  cases hn : c.newRequest rt method path enc payload with
  | error err => simp [hn] at h
  | ok req' =>
    rw [hn] at h
    cases hp : c.performRequest rt req' with
    | mk res body =>
      cases res with
      | error err =>
        simp only [hp] at h
        rw [Option.some.inj h]
      | ok rsp =>
        simp only [hp] at h
        rw [Option.some.inj h]

theorem callStream_sent {S F α : Type} (rt : Runtime F) (c : client) (path : String)
    (enc : S → JSON F) (payload : Option (GoValue S)) (unmarshal : Bytes → Except Error α)
    (r : StreamCallResult α) (req : HTTPRequest)
    (h : c.callStream rt path enc payload unmarshal = some r) (hs : r.sent = some req) :
    c.newRequest rt "POST" path enc payload = .ok req := by
  unfold client.callStream at h
  cases hn : c.newRequest rt "POST" path enc payload with
  | error err =>
    simp only [hn] at h
    rw [← Option.some.inj h] at hs
    simp at hs
  | ok req' =>
    rw [hn] at h
    cases hp : c.performRequest rt req' with
    | mk res body =>
      cases res with
      | error err =>
        simp only [hp] at h
        rw [← Option.some.inj h] at hs
        rw [Option.some.inj hs]
      | ok rsp =>
        simp only [hp] at h
        cases hr : readStream unmarshal rsp.Body with
        | none => simp [hr] at h
        | some r' =>
          simp only [hr] at h
          rw [← Option.some.inj h] at hs
          rw [Option.some.inj hs]

theorem newRequest_body {S F : Type} (rt : Runtime F) (c : client) (method path : String)
    (enc : S → JSON F) (payload : Option (GoValue S)) (req : HTTPRequest)
    (h : c.newRequest rt method path enc payload = .ok req) :
    jsonBodyReader rt enc payload = .ok req.Body := by
  unfold client.newRequest at h
  cases hb : jsonBodyReader rt enc payload with
  | error err => simp [hb] at h
  | ok b =>
    simp only [hb] at h
    cases he : rt.newRequestErr method (c.baseURL ++ path) with
    | some err => simp [he] at h
    | none =>
      simp only [he] at h
      rw [← Except.ok.inj h]

theorem jsonBodyReader_some {S F : Type} (rt : Runtime F) (enc : S → JSON F) (v : GoValue S)
    (b : Bytes) (h : jsonBodyReader rt enc (some v) = .ok b) :
    (v.toJSON enc).encode rt.formatFloat rt.quote = .ok b := by
  unfold jsonBodyReader jsonMarshal at h
  cases he : (v.toJSON enc).encode rt.formatFloat rt.quote with
  | error err => simp [he] at h
  | ok raw =>
    simp only [he] at h
    rw [← Except.ok.inj h]

theorem mem_omitempty {F : Type} (empty : Bool) (key : String) (v : JSON F) (k : String)
    (w : JSON F) : (k, w) ∈ omitempty empty key v ↔ empty = false ∧ k = key ∧ w = v := by
  cases empty <;> simp [omitempty]

/-- The `stream` and `model` members of an encoded chat request. -/
theorem chat_members {F : Type} (isZero : F → Bool) (r : ChatCompletionRequest F) :
    ∃ ms, ChatCompletionRequest.toJSON isZero r = .obj ms ∧
      (∀ v, ("stream", v) ∈ ms ↔ (r.Stream = true ∧ v = .bool true)) ∧
      (∀ v, ("model", v) ∈ ms ↔ v = .str r.Model) := by
  refine ⟨_, rfl, ?_, ?_⟩
  · intro v
    simp [mem_omitempty]
    intro h
    rw [h]
  · intro v
    simp [mem_omitempty]

/-- The `stream` and `model` members of an encoded completion request. -/
theorem completion_members {F : Type} (isZero : F → Bool) (r : CompletionRequest F) :
    ∃ ms, CompletionRequest.toJSON isZero r = .obj ms ∧
      (∀ v, ("stream", v) ∈ ms ↔ (r.Stream = true ∧ v = .bool true)) ∧
      (∀ v, ("model", v) ∈ ms ↔ v = .str r.Model) := by
  refine ⟨_, rfl, ?_, ?_⟩
  · intro v
    simp [mem_omitempty]
    intro h
    rw [h]
  · intro v
    simp [mem_omitempty]

/-- What `ChatCompletion` sends is the encoding of the request with the model defaulted and
`Stream` cleared. -/
theorem ChatCompletion_wire {F : Type} (rt : Runtime F) (c : client)
    (request : ChatCompletionRequest F) (req : HTTPRequest)
    (h : (c.ChatCompletion rt request).sent = some req) :
    (ChatCompletionRequest.toJSON rt.floatIsZero
        { (if request.Model = "" then { request with Model := GPT3Dot5Turbo } else request) with
          Stream := false }).encode rt.formatFloat rt.quote = .ok req.Body :=
  jsonBodyReader_some rt _ _ _ (newRequest_body rt c _ _ _ _ req (call_sent rt c _ _ _ _ _ req h))

/-- What `ChatCompletionStream` sends is the encoding of the request with the model defaulted
and `Stream` set. -/
theorem ChatCompletionStream_wire {F : Type} (rt : Runtime F) (c : client)
    (request : ChatCompletionRequest F) (r : StreamCallResult ChatCompletionStreamResponse)
    (req : HTTPRequest) (h : c.ChatCompletionStream rt request = some r)
    (hs : r.sent = some req) :
    (ChatCompletionRequest.toJSON rt.floatIsZero
        { (if request.Model = "" then { request with Model := GPT3Dot5Turbo } else request) with
          Stream := true }).encode rt.formatFloat rt.quote = .ok req.Body :=
  jsonBodyReader_some rt _ _ _
    (newRequest_body rt c _ _ _ _ req (callStream_sent rt c _ _ _ _ r req h hs))

/-- What `CompletionWithEngine` sends is the encoding of the request with `Stream` cleared. -/
theorem CompletionWithEngine_wire {F : Type} (rt : Runtime F) (c : client)
    (request : CompletionRequest F) (req : HTTPRequest)
    (h : (c.CompletionWithEngine rt request).sent = some req) :
    (CompletionRequest.toJSON rt.floatIsZero { request with Stream := false }).encode
      rt.formatFloat rt.quote = .ok req.Body := by
  unfold client.CompletionWithEngine at h
  have h1 := call_sent rt c "POST" "/completions" (CompletionRequest.toJSON rt.floatIsZero)
    (some (.pointer (some (.pointer (some (.struct { request with Stream := false }))))))
    rt.decodeCompletion req h
  have h2 := newRequest_body rt c _ _ _ _ req h1
  exact jsonBodyReader_some rt (CompletionRequest.toJSON rt.floatIsZero) _ _ h2

/-- What `CompletionStreamWithEngine` sends is the encoding of the request with `Stream`
set. -/
theorem CompletionStreamWithEngine_wire {F : Type} (rt : Runtime F) (c : client)
    (request : CompletionRequest F) (r : StreamCallResult (CompletionResponse F))
    (req : HTTPRequest) (h : c.CompletionStreamWithEngine rt request = some r)
    (hs : r.sent = some req) :
    (CompletionRequest.toJSON rt.floatIsZero { request with Stream := true }).encode
      rt.formatFloat rt.quote = .ok req.Body := by
  unfold client.CompletionStreamWithEngine at h
  have h1 := callStream_sent rt c "/completions" (CompletionRequest.toJSON rt.floatIsZero)
    (some (.pointer (some (.pointer (some (.struct { request with Stream := true }))))))
    rt.unmarshalCompletion r req h hs
  have h2 := newRequest_body rt c _ _ _ _ req h1
  exact jsonBodyReader_some rt (CompletionRequest.toJSON rt.floatIsZero) _ _ h2

theorem chat_wire_members {F : Type} (rt : Runtime F) (r : ChatCompletionRequest F)
    (req : HTTPRequest)
    (h : (ChatCompletionRequest.toJSON rt.floatIsZero r).encode rt.formatFloat rt.quote
      = .ok req.Body) :
    ∃ ms, WireObject rt req ms ∧
      ∀ v, ("stream", v) ∈ ms ↔ (r.Stream = true ∧ v = .bool true) := by
  obtain ⟨ms, hms, hstream, _⟩ := chat_members rt.floatIsZero r
  rw [hms] at h
  exact ⟨ms, h, hstream⟩

theorem completion_wire_members {F : Type} (rt : Runtime F) (r : CompletionRequest F)
    (req : HTTPRequest)
    (h : (CompletionRequest.toJSON rt.floatIsZero r).encode rt.formatFloat rt.quote
      = .ok req.Body) :
    ∃ ms, WireObject rt req ms ∧
      ∀ v, ("stream", v) ∈ ms ↔ (r.Stream = true ∧ v = .bool true) := by
  obtain ⟨ms, hms, hstream, _⟩ := completion_members rt.floatIsZero r
  rw [hms] at h
  exact ⟨ms, h, hstream⟩

/-- C2, as the code has it: whatever the caller put in `Stream`, the JSON object sent by a
non-streaming entry point (`ChatCompletion`, `Completion`, `CompletionWithEngine`) has no
`stream` member at all (the field is tagged `omitempty`, and `false` is empty), and the
object sent by a streaming entry point (`ChatCompletionStream`, `CompletionStream`,
`CompletionStreamWithEngine`) has the member `stream` with value `true` and no other. The
value the caller put in `Stream` changes nothing in what the call does. -/
theorem stream_flag_on_the_wire {F : Type} (rt : Runtime F) (c : client) :
    (∀ (request : ChatCompletionRequest F) (req : HTTPRequest),
      (c.ChatCompletion rt request).sent = some req →
        ∃ ms, WireObject rt req ms ∧ ∀ v, ("stream", v) ∉ ms) ∧
    (∀ (request : CompletionRequest F) (req : HTTPRequest),
      (c.Completion rt request).sent = some req →
        ∃ ms, WireObject rt req ms ∧ ∀ v, ("stream", v) ∉ ms) ∧
    (∀ (request : CompletionRequest F) (req : HTTPRequest),
      (c.CompletionWithEngine rt request).sent = some req →
        ∃ ms, WireObject rt req ms ∧ ∀ v, ("stream", v) ∉ ms) ∧
    (∀ (request : ChatCompletionRequest F) (r : StreamCallResult ChatCompletionStreamResponse)
        (req : HTTPRequest),
      c.ChatCompletionStream rt request = some r → r.sent = some req →
        ∃ ms, WireObject rt req ms ∧ ∀ v, ("stream", v) ∈ ms ↔ v = .bool true) ∧
    (∀ (request : CompletionRequest F) (r : StreamCallResult (CompletionResponse F))
        (req : HTTPRequest),
      c.CompletionStream rt request = some r → r.sent = some req →
        ∃ ms, WireObject rt req ms ∧ ∀ v, ("stream", v) ∈ ms ↔ v = .bool true) ∧
    (∀ (request : CompletionRequest F) (r : StreamCallResult (CompletionResponse F))
        (req : HTTPRequest),
      c.CompletionStreamWithEngine rt request = some r → r.sent = some req →
        ∃ ms, WireObject rt req ms ∧ ∀ v, ("stream", v) ∈ ms ↔ v = .bool true) ∧
    (∀ (request : ChatCompletionRequest F) (b : Bool),
      (c.ChatCompletion rt { request with Stream := b }).sent
          = (c.ChatCompletion rt request).sent ∧
        c.ChatCompletionStream rt { request with Stream := b }
          = c.ChatCompletionStream rt request) ∧
    (∀ (request : CompletionRequest F) (b : Bool),
      (c.CompletionWithEngine rt { request with Stream := b }).sent
          = (c.CompletionWithEngine rt request).sent ∧
        c.CompletionStreamWithEngine rt { request with Stream := b }
          = c.CompletionStreamWithEngine rt request) := by
  have hoff : ∀ (request : CompletionRequest F) (req : HTTPRequest),
      (c.CompletionWithEngine rt request).sent = some req →
        ∃ ms, WireObject rt req ms ∧ ∀ v, ("stream", v) ∉ ms := by
    intro request req h
    obtain ⟨ms, hw, hm⟩ := completion_wire_members rt _ req
      (CompletionWithEngine_wire rt c request req h)
    exact ⟨ms, hw, fun v hv => by simpa using ((hm v).1 hv).1⟩
  have hon : ∀ (request : CompletionRequest F) (r : StreamCallResult (CompletionResponse F))
      (req : HTTPRequest),
      c.CompletionStreamWithEngine rt request = some r → r.sent = some req →
        ∃ ms, WireObject rt req ms ∧ ∀ v, ("stream", v) ∈ ms ↔ v = .bool true := by
    intro request r req h hs
    obtain ⟨ms, hw, hm⟩ := completion_wire_members rt _ req
      (CompletionStreamWithEngine_wire rt c request r req h hs)
    exact ⟨ms, hw, fun v => by simpa using hm v⟩
  refine ⟨?_, hoff, hoff, ?_, hon, hon, ?_, ?_⟩
  · intro request req h
    obtain ⟨ms, hw, hm⟩ := chat_wire_members rt _ req (ChatCompletion_wire rt c request req h)
    exact ⟨ms, hw, fun v hv => by simpa using ((hm v).1 hv).1⟩
  · intro request r req h hs
    obtain ⟨ms, hw, hm⟩ := chat_wire_members rt _ req
      (ChatCompletionStream_wire rt c request r req h hs)
    exact ⟨ms, hw, fun v => by simpa using hm v⟩
  · intro request b
    constructor
    · unfold client.ChatCompletion
      by_cases hmodel : request.Model = "" <;> simp [hmodel]
    · unfold client.ChatCompletionStream
      by_cases hmodel : request.Model = "" <;> simp [hmodel]
  · intro request b
    exact ⟨rfl, rfl⟩

/-- The request the example client sends for a chat completion of the empty example
request: no `stream` member. -/
theorem demo_chat_sent :
    ((demoClient 200 []).ChatCompletion demoRuntime (demoChatRequest "" true)).sent
      = some
        { Method := "POST", URL := "https://api.openai.com/v1/chat/completions",
          Header := [("Authorization", "Bearer sk-demo"), ("Content-Type", "application/json")],
          Body := bytesOf "\x7b\"model\":\"gpt-3.5-turbo\",\"messages\":null\x7d" } := by
  decide

/-- C2, worked example: the example chat request with `Stream` preset to `true`, sent through
`ChatCompletion`, goes out as an object without a `stream` member. -/
theorem stream_flag_on_the_wire_witness :
    ∃ ms, WireObject demoRuntime
        { Method := "POST", URL := "https://api.openai.com/v1/chat/completions",
          Header := [("Authorization", "Bearer sk-demo"), ("Content-Type", "application/json")],
          Body := bytesOf "\x7b\"model\":\"gpt-3.5-turbo\",\"messages\":null\x7d" } ms ∧
      ∀ v, ("stream", v) ∉ ms :=
  (stream_flag_on_the_wire demoRuntime (demoClient 200 [])).1 (demoChatRequest "" true) _
    demo_chat_sent

/-- C2, counterexample: with `Stream` preset to `true`, `ChatCompletion` and `Completion`
send the bodies shown, which have no `stream` member equal to `false`: the word `stream`
does not even occur in the chat body. -/
theorem non_streaming_body_has_no_stream_member :
    (((demoClient 200 []).ChatCompletion demoRuntime (demoChatRequest "" true)).sent.map
        (fun req => req.Body)
      = some (bytesOf "\x7b\"model\":\"gpt-3.5-turbo\",\"messages\":null\x7d")) ∧
    (((demoClient 200 []).Completion demoRuntime (demoCompletionRequest "ada" true)).sent.map
        (fun req => req.Body)
      = some (bytesOf ("\x7b\"model\":\"ada\",\"n\":null,\"logprobs\":null,\"echo\":false,"
          ++ "\"presence_penalty\":0,\"frequency_penalty\":0\x7d"))) ∧
    ¬ (bytesOf "stream" <:+: bytesOf "\x7b\"model\":\"gpt-3.5-turbo\",\"messages\":null\x7d") :=
  ⟨by decide, by decide, by decide⟩

/-- The `model` member on the wire. The chat entry points send `gpt-3.5-turbo` for an empty
`Model` and any other `Model` unchanged; the completion entry points send `Model` unchanged,
empty or not, and never look at the client's default engine. -/
theorem model_on_the_wire {F : Type} (rt : Runtime F) (c : client) :
    (∀ (request : ChatCompletionRequest F) (req : HTTPRequest),
      (c.ChatCompletion rt request).sent = some req →
        ∃ ms, WireObject rt req ms ∧ ∀ v, ("model", v) ∈ ms ↔
          v = .str (if request.Model = "" then GPT3Dot5Turbo else request.Model)) ∧
    (∀ (request : ChatCompletionRequest F) (r : StreamCallResult ChatCompletionStreamResponse)
        (req : HTTPRequest),
      c.ChatCompletionStream rt request = some r → r.sent = some req →
        ∃ ms, WireObject rt req ms ∧ ∀ v, ("model", v) ∈ ms ↔
          v = .str (if request.Model = "" then GPT3Dot5Turbo else request.Model)) ∧
    (∀ (request : CompletionRequest F) (req : HTTPRequest),
      (c.Completion rt request).sent = some req →
        ∃ ms, WireObject rt req ms ∧ ∀ v, ("model", v) ∈ ms ↔ v = .str request.Model) ∧
    (∀ (request : CompletionRequest F) (r : StreamCallResult (CompletionResponse F))
        (req : HTTPRequest),
      c.CompletionStream rt request = some r → r.sent = some req →
        ∃ ms, WireObject rt req ms ∧ ∀ v, ("model", v) ∈ ms ↔ v = .str request.Model) := by
  refine ⟨?_, ?_, ?_, ?_⟩
  · intro request req h
    have hw := ChatCompletion_wire rt c request req h
    obtain ⟨ms, hms, _, hmodel⟩ := chat_members rt.floatIsZero
      { (if request.Model = "" then { request with Model := GPT3Dot5Turbo } else request) with
        Stream := false }
    rw [hms] at hw
    refine ⟨ms, hw, fun v => ?_⟩
    rw [hmodel v]
    by_cases hm : request.Model = "" <;> simp [hm]
  · intro request r req h hs
    have hw := ChatCompletionStream_wire rt c request r req h hs
    obtain ⟨ms, hms, _, hmodel⟩ := chat_members rt.floatIsZero
      { (if request.Model = "" then { request with Model := GPT3Dot5Turbo } else request) with
        Stream := true }
    rw [hms] at hw
    refine ⟨ms, hw, fun v => ?_⟩
    rw [hmodel v]
    by_cases hm : request.Model = "" <;> simp [hm]
  · intro request req h
    have hw := CompletionWithEngine_wire rt c request req h
    obtain ⟨ms, hms, _, hmodel⟩ := completion_members rt.floatIsZero
      { request with Stream := false }
    rw [hms] at hw
    exact ⟨ms, hw, hmodel⟩
  · intro request r req h hs
    have hw := CompletionStreamWithEngine_wire rt c request r req h hs
    obtain ⟨ms, hms, _, hmodel⟩ := completion_members rt.floatIsZero
      { request with Stream := true }
    rw [hms] at hw
    exact ⟨ms, hw, hmodel⟩

/-- C3, the failing input evaluated: a client whose default engine was set to
`text-davinci-003`, asked through `Completion` and through `CompletionStream` for a
completion with the model left empty, sends `"model":""`: the default engine is not filled
in. -/
theorem completion_sends_empty_model :
    ((NewClient noClients (fun _ => .error .EOF) "sk-demo"
          [WithDefaultEngine "text-davinci-003"]).map fun c =>
        (c.Completion demoRuntime (demoCompletionRequest "" false)).sent.map
          (fun req => req.Body))
      = some (some (bytesOf ("\x7b\"model\":\"\",\"n\":null,\"logprobs\":null,\"echo\":false,"
          ++ "\"presence_penalty\":0,\"frequency_penalty\":0\x7d"))) ∧
    ((NewClient noClients (fun _ => .error .EOF) "sk-demo"
          [WithDefaultEngine "text-davinci-003"]).map fun c =>
        (c.CompletionStream demoRuntime (demoCompletionRequest "" false)).bind
          (fun r => r.sent.map (fun req => req.Body)))
      = some (some (bytesOf ("\x7b\"model\":\"\",\"n\":null,\"stream\":true,\"logprobs\":null,"
          ++ "\"echo\":false,\"presence_penalty\":0,\"frequency_penalty\":0\x7d"))) ∧
    (NewClient noClients (fun _ => .error .EOF) "sk-demo"
        [WithDefaultEngine "text-davinci-003"]).map (fun c => c.defaultEngine)
      = some "text-davinci-003" := by
  decide

/-! ## The status check -/

/-- C4, as the code has it: for a response with a status outside `[200, 300)` whose body is
read to its end, `checkForSuccess`, and with it `performRequest`, returns an `APIError`
whose `StatusCode` is the HTTP status, whatever the bytes of the body and whatever status
they may carry; when reading the body fails, the error returned is the read error wrapped
as `failed to read from body`, which is not an `APIError`. -/
theorem non_2xx_yields_api_error {F : Type} (rt : Runtime F) (rsp : HTTPResponse)
    (hstatus : ¬ (200 ≤ rsp.StatusCode ∧ rsp.StatusCode < 300)) :
    (rsp.Body.err = .EOF →
      ∃ e : APIError, e.StatusCode = rsp.StatusCode ∧
        (checkForSuccess rt rsp).1 = some (.api e) ∧
        ∀ (c : client) (req : HTTPRequest), c.httpClient.Do req = .ok rsp →
          (c.performRequest rt req).1 = .error (.api e)) ∧
    (rsp.Body.err ≠ .EOF →
      (checkForSuccess rt rsp).1
          = some (.errorf "failed to read from body" true rsp.Body.err) ∧
        ∀ (c : client) (req : HTTPRequest), c.httpClient.Do req = .ok rsp →
          (c.performRequest rt req).1
            = .error (.errorf "failed to read from body" true rsp.Body.err)) := by
  constructor
  · intro hread
    have hall : ReadAll rsp.Body = .ok rsp.Body.data := by
      simp [ReadAll, hread]
    cases hu : rt.unmarshalAPIError rsp.Body.data with
    | error cause =>
      have hc : checkForSuccess rt rsp
          = (some (.api { StatusCode := rsp.StatusCode, Type_ := bytesOf "Unexpected",
                          Message := rsp.Body.data }),
              { rsp with Body := rsp.Body.Close }) := by
        simp [checkForSuccess, hstatus, hall, hu]
      refine ⟨_, rfl, by rw [hc], ?_⟩
      intro c req hdo
      simp [client.performRequest, hdo, hc]
    | ok result =>
      have hc : checkForSuccess rt rsp
          = (some (.api { result.Error with StatusCode := rsp.StatusCode }),
              { rsp with Body := rsp.Body.Close }) := by
        simp [checkForSuccess, hstatus, hall, hu]
      refine ⟨_, rfl, by rw [hc], ?_⟩
      intro c req hdo
      simp [client.performRequest, hdo, hc]
  · intro hread
    have hall : ReadAll rsp.Body = .error rsp.Body.err := by
      unfold ReadAll
      split
      · next h => exact absurd h hread
      · rfl
    have hc : checkForSuccess rt rsp
        = (some (.errorf "failed to read from body" true rsp.Body.err),
            { rsp with Body := rsp.Body.Close }) := by
      simp [checkForSuccess, hstatus, hall]
    refine ⟨by rw [hc], ?_⟩
    intro c req hdo
    simp [client.performRequest, hdo, hc]

/-- C4, worked example: a 404 whose body is read to its end and is not the JSON error shape
gives an `APIError` with status 404, from `checkForSuccess` and from `performRequest`. -/
theorem non_2xx_yields_api_error_witness :
    ∃ e : APIError, e.StatusCode = 404 ∧
      (checkForSuccess demoRuntime
        { StatusCode := 404, Body := { data := bytesOf "404 page not found", err := .EOF } }).1
        = some (.api e) ∧
      ∀ (c : client) (req : HTTPRequest),
        c.httpClient.Do req
          = .ok { StatusCode := 404,
                  Body := { data := bytesOf "404 page not found", err := .EOF } } →
        (c.performRequest demoRuntime req).1 = .error (.api e) :=
  (non_2xx_yields_api_error demoRuntime
    { StatusCode := 404, Body := { data := bytesOf "404 page not found", err := .EOF } }
    (by decide)).1 rfl

/-- C4, counterexample: a 500 response whose body breaks off with a read error makes
`checkForSuccess`, and the `Engines` call that received it, return the wrapped read error:
not an `APIError`. -/
theorem unreadable_error_body_is_not_api_error :
    (checkForSuccess demoRuntime
        { StatusCode := 500,
          Body := { data := [], err := .other (bytesOf "connection reset by peer") } }).1
      = some (.errorf "failed to read from body" true
          (.other (bytesOf "connection reset by peer"))) ∧
    (NewClient noClients
        (fun _ => .ok { StatusCode := 500,
                        Body := { data := [], err := .other (bytesOf "connection reset by peer") } })
        "sk-demo" []).map (fun c => (c.Engines demoRuntime).result)
      = some (.error (.errorf "failed to read from body" true
          (.other (bytesOf "connection reset by peer")))) ∧
    ¬ ∃ e : APIError,
      (checkForSuccess demoRuntime
        { StatusCode := 500,
          Body := { data := [], err := .other (bytesOf "connection reset by peer") } }).1
      = some (.api e) := by
  refine ⟨by decide, by decide, ?_⟩
  rintro ⟨e, he⟩
  have h : (checkForSuccess demoRuntime
        { StatusCode := 500,
          Body := { data := [], err := .other (bytesOf "connection reset by peer") } }).1
      = some (.errorf "failed to read from body" true
          (.other (bytesOf "connection reset by peer"))) := by decide
  rw [h] at he
  cases he

/-- C5: for a response with a status outside `[200, 300)` whose body is read to its end and
does not decode as the JSON error shape, `checkForSuccess` returns the `APIError` with the
HTTP status, type `Unexpected`, and the bytes of the body, unchanged, as its message. -/
theorem undecodable_error_body_is_unexpected {F : Type} (rt : Runtime F) (rsp : HTTPResponse)
    (cause : Error) (hstatus : ¬ (200 ≤ rsp.StatusCode ∧ rsp.StatusCode < 300))
    (hread : rsp.Body.err = .EOF)
    (hbad : rt.unmarshalAPIError rsp.Body.data = .error cause) :
    (checkForSuccess rt rsp).1
      = some (.api { StatusCode := rsp.StatusCode, Type_ := bytesOf "Unexpected",
                     Message := rsp.Body.data }) := by
  have hall : ReadAll rsp.Body = .ok rsp.Body.data := by
    simp [ReadAll, hread]
  simp [checkForSuccess, hstatus, hall, hbad]

/-- C5, worked example: a 503 with an empty body gives type `Unexpected` and the empty
message. -/
theorem undecodable_error_body_is_unexpected_witness :
    (checkForSuccess demoRuntime { StatusCode := 503, Body := { data := [], err := .EOF } }).1
      = some (.api { StatusCode := 503, Type_ := bytesOf "Unexpected", Message := [] }) :=
  undecodable_error_body_is_unexpected demoRuntime
    { StatusCode := 503, Body := { data := [], err := .EOF } }
    (.other (bytesOf "invalid character")) (by decide) rfl rfl

/-! ## The request body -/

/-- C10, as the code has it: for the untyped `nil` payload, the one `Engines` and `Engine`
pass, `jsonBodyReader` gives the empty byte sequence, and so does every request `newRequest`
builds from it; such a request is built whenever the URL is accepted. -/
theorem nil_payload_gives_empty_body {S F : Type} (rt : Runtime F) (c : client)
    (method path : String) (enc : S → JSON F) :
    jsonBodyReader rt enc none = .ok [] ∧
    (∀ req, c.newRequest rt method path enc none = .ok req → req.Body = []) ∧
    (rt.newRequestErr method (c.baseURL ++ path) = none →
      ∃ req, c.newRequest rt method path enc none = .ok req ∧ req.Body = []) ∧
    (∀ req, (c.Engines rt).sent = some req → req.Body = []) ∧
    (∀ engine req, (c.Engine rt engine).sent = some req → req.Body = []) := by
  have hnil : ∀ {T : Type} (enc' : T → JSON F) (m p : String) (req : HTTPRequest),
      c.newRequest rt m p enc' none = .ok req → req.Body = [] := by
    intro T enc' m p req h
    have := newRequest_body rt c m p enc' none req h
    simp only [jsonBodyReader] at this
    exact (Except.ok.inj this).symm
  refine ⟨rfl, hnil enc method path, ?_, ?_, ?_⟩
  · intro hurl
    cases hreq : c.newRequest rt method path enc none with
    | error err => simp [client.newRequest, jsonBodyReader, hurl] at hreq
    | ok req => exact ⟨req, rfl, hnil enc method path req hreq⟩
  · intro req h
    exact hnil _ _ _ req (call_sent rt c _ _ _ _ _ req h)
  · intro engine req h
    exact hnil _ _ _ req (call_sent rt c _ _ _ _ _ req h)

/-- The request the example client sends for `Engines`. -/
theorem demo_engines_sent :
    ((demoClient 200 []).Engines demoRuntime).sent
      = some
        { Method := "GET", URL := "https://api.openai.com/v1/engines",
          Header := [("Authorization", "Bearer sk-demo"), ("Content-Type", "application/json")],
          Body := [] } := by
  decide

/-- C10, worked example: the request `Engines` sends has an empty body. -/
theorem nil_payload_gives_empty_body_witness :
    ({ Method := "GET", URL := "https://api.openai.com/v1/engines",
       Header := [("Authorization", "Bearer sk-demo"), ("Content-Type", "application/json")],
       Body := [] } : HTTPRequest).Body = [] :=
  (nil_payload_gives_empty_body demoRuntime (demoClient 200 []) "GET" "/engines"
    (fun (_ : Unit) => (.null : JSON Int))).2.2.2.1 _ demo_engines_sent

/-- C10, counterexample: handed a nil request pointer, `Edits`, `Embeddings` and
`SearchWithEngine` send the four bytes `null`, not the empty byte sequence. -/
theorem nil_request_pointer_is_sent_as_null :
    (((demoClient 200 []).Edits demoRuntime none).sent.map (fun req => req.Body)
      = some (bytesOf "null")) ∧
    (((demoClient 200 []).Embeddings demoRuntime none).sent.map (fun req => req.Body)
      = some (bytesOf "null")) ∧
    (((demoClient 200 []).SearchWithEngine demoRuntime "ada" none).sent.map (fun req => req.Body)
      = some (bytesOf "null")) ∧
    bytesOf "null" ≠ [] :=
  ⟨by decide, by decide, by decide, by decide⟩

/-! ## The request headers -/

theorem canonical_content_type : CanonicalMIMEHeaderKey "Content-type" = "Content-Type" := by
  decide

theorem canonical_authorization : CanonicalMIMEHeaderKey "Authorization" = "Authorization" := by
  decide

theorem canonical_organization :
    CanonicalMIMEHeaderKey "OpenAI-Organization" = "Openai-Organization" := by
  decide

theorem length_pos_iff_ne_empty (s : String) : s.length > 0 ↔ s ≠ "" := by
  constructor
  · intro h e
    rw [e] at h
    exact absurd h (by decide)
  · intro h
    by_contra hn
    have h0 : s.length = 0 := by omega
    apply h
    have hd : s.data = [] := List.length_eq_zero.1 h0
    cases s
    simp only at hd
    rw [hd]

/-- The header set of a request `newRequest` builds, key by key as `Header.Set` stores it. -/
theorem newRequest_header {S F : Type} (rt : Runtime F) (c : client) (method path : String)
    (enc : S → JSON F) (payload : Option (GoValue S)) (req : HTTPRequest)
    (h : c.newRequest rt method path enc payload = .ok req) :
    req.Header
      = [("Authorization", "Bearer " ++ c.apiKey), ("Content-Type", "application/json")]
        ++ (if c.idOrg = "" then [] else [("Openai-Organization", c.idOrg)]) := by
  unfold client.newRequest at h
  cases hb : jsonBodyReader rt enc payload with
  | error err => simp [hb] at h
  | ok b =>
    simp only [hb] at h
    cases he : rt.newRequestErr method (c.baseURL ++ path) with
    | some err => simp [he] at h
    | none =>
      simp only [he] at h
      rw [← Except.ok.inj h]
      by_cases horg : c.idOrg = ""
      · have hlen : ¬ c.idOrg.length > 0 := fun hl => (length_pos_iff_ne_empty _).1 hl horg
        simp [hlen, horg, Header.Set, canonical_content_type, canonical_authorization]
      · have hlen : c.idOrg.length > 0 := (length_pos_iff_ne_empty _).2 horg
        simp [hlen, horg, Header.Set, canonical_content_type, canonical_authorization,
          canonical_organization]

/-- C11: every request `newRequest` builds has the header `Content-Type` with value
`application/json` and the header `Authorization` with value `Bearer ` followed by the API
key; it has an `OpenAI-Organization` header exactly when the organization id is not empty,
and its value is then that id. (Header names are looked up as `Header.Get` does, without
regard to case; the name is stored as `Openai-Organization`.) There is no other header. -/
theorem newRequest_sets_headers {S F : Type} (rt : Runtime F) (c : client)
    (method path : String) (enc : S → JSON F) (payload : Option (GoValue S)) (req : HTTPRequest)
    (h : c.newRequest rt method path enc payload = .ok req) :
    req.Header.Get "Content-Type" = some "application/json" ∧
    req.Header.Get "Authorization" = some ("Bearer " ++ c.apiKey) ∧
    (c.idOrg ≠ "" → req.Header.Get "OpenAI-Organization" = some c.idOrg) ∧
    (c.idOrg = "" → req.Header.Get "OpenAI-Organization" = none) ∧
    (∀ k v, (k, v) ∈ req.Header →
      k = "Content-Type" ∨ k = "Authorization" ∨ (k = "Openai-Organization" ∧ c.idOrg ≠ "")) := by
  have hh := newRequest_header rt c method path enc payload req h
  have hct : CanonicalMIMEHeaderKey "Content-Type" = "Content-Type" := by decide
  refine ⟨?_, ?_, ?_, ?_, ?_⟩
  · rw [Header.Get, hh, hct]
    simp [List.lookup]
  · rw [Header.Get, hh, canonical_authorization]
    simp [List.lookup]
  · intro horg
    rw [Header.Get, hh, canonical_organization]
    simp [List.lookup, horg]
  · intro horg
    rw [Header.Get, hh, canonical_organization]
    simp [List.lookup, horg]
  · intro k v hkv
    rw [hh] at hkv
    by_cases horg : c.idOrg = ""
    · simp [horg] at hkv
      rcases hkv with h1 | h1
      · exact Or.inr (Or.inl h1.1)
      · exact Or.inl h1.1
    · simp [horg] at hkv
      rcases hkv with h1 | h1 | h1
      · exact Or.inr (Or.inl h1.1)
      · exact Or.inl h1.1
      · exact Or.inr (Or.inr ⟨h1.1, horg⟩)

/-- C11, worked example: the request of a client with key `sk-demo` and organization
`org-1`. -/
theorem newRequest_sets_headers_witness :
    demoOrgRequest.Header.Get "Content-Type" = some "application/json" ∧
    demoOrgRequest.Header.Get "Authorization" = some ("Bearer " ++ demoOrgClient.apiKey) ∧
    (demoOrgClient.idOrg ≠ "" →
      demoOrgRequest.Header.Get "OpenAI-Organization" = some demoOrgClient.idOrg) ∧
    (demoOrgClient.idOrg = "" → demoOrgRequest.Header.Get "OpenAI-Organization" = none) ∧
    (∀ k v, (k, v) ∈ demoOrgRequest.Header →
      k = "Content-Type" ∨ k = "Authorization" ∨
        (k = "Openai-Organization" ∧ demoOrgClient.idOrg ≠ "")) :=
  newRequest_sets_headers demoRuntime demoOrgClient "GET" "/engines"
    (fun (_ : Unit) => (.null : JSON Int)) none demoOrgRequest (by decide)

/-! ## The construction, option by option -/

theorem foldl_options (setters : List Setter) :
    ∀ st : Option Building,
      (setters.map Setter.option).foldl (fun cli opt => cli.bind opt.apply) st
        = st.bind fun b => applySetters b setters := by
  induction setters with
  | nil =>
    intro st
    cases st <;> rfl
  | cons s ss ih =>
    intro st
    rw [List.map_cons, List.foldl_cons, ih]
    cases st <;> rfl

/-- The loop of `NewClient` applies the options one after the other to the defaults. -/
theorem buildWith_eq (callerClients : Nat → HTTPClient)
    (transport : HTTPRequest → Except Error HTTPResponse) (apiKey : String)
    (setters : List Setter) :
    buildWith callerClients transport apiKey setters
      = applySetters (Building.defaults callerClients transport apiKey) setters :=
  foldl_options setters (some (Building.defaults callerClients transport apiKey))

theorem applySetters_append (pre post : List Setter) :
    ∀ b : Building,
      applySetters b (pre ++ post) = (applySetters b pre).bind fun b1 => applySetters b1 post := by
  induction pre with
  | nil => intro b; rfl
  | cons s ss ih =>
    intro b
    simp only [List.cons_append, applySetters]
    cases s.option.apply b with
    | none => rfl
    | some b1 => exact ih b1

/-- The client built without options, and the one built with an organization id. -/
theorem demoClient_built (status : Int) (body : Bytes) :
    NewClient noClients
        (fun _ => .ok { StatusCode := status, Body := { data := body, err := .EOF } })
        "sk-demo" [] = some (demoClient status body) ∧
      NewClient noClients (fun _ => .error .EOF) "sk-demo" [WithOrg "org-1"]
        = some demoOrgClient :=
  ⟨rfl, rfl⟩

/-- Two structs that differ at most in the user agent stay so under every list of options,
and the options panic on the one exactly when they panic on the other. -/
theorem setters_keep_agreement (post : List Setter) :
    ∀ (b : Building) (u : String),
      (applySetters { b with userAgent := u } post = none ∧ applySetters b post = none) ∨
      ∃ r v, applySetters { b with userAgent := u } post = some { r with userAgent := v } ∧
        applySetters b post = some r := by
  induction post with
  | nil =>
    intro b u
    exact Or.inr ⟨b, u, rfl, rfl⟩
  | cons s ss ih =>
    intro b u
    cases s with
    | org id => exact ih { b with idOrg := id } u
    | engine e => exact ih { b with defaultEngine := e } u
    | agent v => exact ih { b with userAgent := v } v
    | url v => exact ih { b with baseURL := v } u
    | http p => exact ih { b with httpClient := ClientPtr.ofArg p } u
    | timeout t =>
      obtain ⟨b1, b2, b3, ptr, b5, b6, b7, b8⟩ := b
      cases ptr with
      | nil => exact Or.inl ⟨rfl, rfl⟩
      | fresh =>
        exact ih
          { baseURL := b1, apiKey := b2, userAgent := b3, httpClient := .fresh,
            defaultEngine := b5, idOrg := b6, fresh := { b7 with Timeout := t },
            callers := b8 } u
      | caller n =>
        exact ih
          { baseURL := b1, apiKey := b2, userAgent := b3, httpClient := .caller n,
            defaultEngine := b5, idOrg := b6, fresh := b7,
            callers := fun m => if m = n then { b8 m with Timeout := t } else b8 m } u
    | null => exact Or.inl ⟨rfl, rfl⟩

/-- C17: the configured user agent has no effect on what is sent. Two clients that differ
only in `userAgent` build the same request for every method, path and payload, and so make
the same calls; no request has a `User-Agent` header; and putting a `WithUserAgent` option
anywhere among the options of `NewClient` leaves every request as it is, and leaves the
struct `NewClient` builds as it is but for the `userAgent` field. -/
theorem user_agent_is_not_sent {S F ρ α : Type} (rt : Runtime F) (c : client)
    (userAgent : String) (method path : String) (enc : S → JSON F)
    (payload : Option (GoValue S)) (decode : Body → Except Error ρ)
    (unmarshal : Bytes → Except Error α) :
    ({ c with userAgent := userAgent } : client).newRequest rt method path enc payload
        = c.newRequest rt method path enc payload ∧
    (∀ req, c.newRequest rt method path enc payload = .ok req →
      req.Header.Get "User-Agent" = none) ∧
    ({ c with userAgent := userAgent } : client).call rt method path enc payload decode
        = c.call rt method path enc payload decode ∧
    ({ c with userAgent := userAgent } : client).callStream rt path enc payload unmarshal
        = c.callStream rt path enc payload unmarshal ∧
    (∀ (callerClients : Nat → HTTPClient)
        (transport : HTTPRequest → Except Error HTTPResponse) (apiKey : String)
        (pre post : List Setter),
      (NewClient callerClients transport apiKey
          ((pre ++ .agent userAgent :: post).map Setter.option)).map
          (fun built => built.newRequest rt method path enc payload)
        = (NewClient callerClients transport apiKey ((pre ++ post).map Setter.option)).map
          (fun built => built.newRequest rt method path enc payload)) ∧
    (∀ (callerClients : Nat → HTTPClient)
        (transport : HTTPRequest → Except Error HTTPResponse) (apiKey : String)
        (pre post : List Setter),
      (buildWith callerClients transport apiKey (pre ++ .agent userAgent :: post)).map
          (fun b => { b with userAgent := "" })
        = (buildWith callerClients transport apiKey (pre ++ post)).map
          (fun b => { b with userAgent := "" })) := by
  refine ⟨rfl, ?_, rfl, rfl, ?_, ?_⟩
  · intro req h
    have hh := newRequest_header rt c method path enc payload req h
    have hua : CanonicalMIMEHeaderKey "User-Agent" = "User-Agent" := by decide
    rw [Header.Get, hh, hua]
    by_cases horg : c.idOrg = "" <;> simp [List.lookup, horg]
  · intro callerClients transport apiKey pre post
    have h1 : ∀ setters : List Setter,
        NewClient callerClients transport apiKey (setters.map Setter.option)
          = (applySetters (Building.defaults callerClients transport apiKey) setters).bind
              Building.client := by
      intro setters
      rw [← buildWith_eq]
      rfl
    rw [h1, h1, applySetters_append, applySetters_append]
    cases applySetters (Building.defaults callerClients transport apiKey) pre with
    | none => rfl
    | some b0 =>
      rcases setters_keep_agreement post b0 userAgent with ⟨hn1, hn2⟩ | ⟨r, v, hr1, hr2⟩
      · have e1 : applySetters b0 (.agent userAgent :: post) = none := hn1
        simp only [Option.some_bind, e1, hn2]
      · have e1 : applySetters b0 (.agent userAgent :: post)
            = some { r with userAgent := v } := hr1
        simp only [Option.some_bind, e1, hr2, Building.client]
        obtain ⟨r1, r2, r3, ptr, r5, r6, r7, r8⟩ := r
        cases ptr <;> rfl
  · intro callerClients transport apiKey pre post
    rw [buildWith_eq, buildWith_eq, applySetters_append, applySetters_append]
    cases applySetters (Building.defaults callerClients transport apiKey) pre with
    | none => rfl
    | some b0 =>
      rcases setters_keep_agreement post b0 userAgent with ⟨hn1, hn2⟩ | ⟨r, v, hr1, hr2⟩
      · have e1 : applySetters b0 (.agent userAgent :: post) = none := hn1
        simp only [Option.some_bind, e1, hn2]
      · have e1 : applySetters b0 (.agent userAgent :: post)
            = some { r with userAgent := v } := hr1
        simp only [Option.some_bind, e1, hr2]
        rfl

/-- C17, worked example: with the default user agent and with `WithUserAgent`, the example
client builds the same request for `GET /engines`, and `User-Agent` is not among its
headers. -/
theorem user_agent_is_not_sent_witness :
    (NewClient noClients (fun _ => .error .EOF) "sk-demo"
        [WithOrg "org-1", WithUserAgent "other-agent/2.0"]).map
        (fun built => built.newRequest demoRuntime "GET" "/engines"
          (fun (_ : Unit) => (.null : JSON Int)) none) = some (.ok demoOrgRequest) ∧
    demoOrgClient.newRequest demoRuntime "GET" "/engines"
        (fun (_ : Unit) => (.null : JSON Int)) none = .ok demoOrgRequest ∧
    demoOrgClient.userAgent = "go-gpt3" ∧
    demoOrgRequest.Header.Get "User-Agent" = none :=
  ⟨by decide, by decide, by decide,
    (user_agent_is_not_sent demoRuntime demoOrgClient "other-agent/2.0" "GET" "/engines"
      (fun (_ : Unit) => (.null : JSON Int)) none demoRuntime.decodeEngines demoUnmarshal).2.1
      demoOrgRequest (by decide)⟩

/-! ## The response body: closed once, decoded once -/

/-- A streaming call always returns. -/
theorem callStream_total {S F α : Type} (rt : Runtime F) (c : client) (path : String)
    (enc : S → JSON F) (payload : Option (GoValue S)) (unmarshal : Bytes → Except Error α) :
    ∃ r, c.callStream rt path enc payload unmarshal = some r := by
  cases hres : c.callStream rt path enc payload unmarshal with
  | some r => exact ⟨r, rfl⟩
  | none =>
    exfalso
    unfold client.callStream at hres
    split at hres
    · simp at hres
    · split at hres
      · simp at hres
      · next rsp _ _ =>
        obtain ⟨r, hr⟩ := readStream_total unmarshal rsp.Body
        simp [hr] at hres

/-- C13: once `httpClient.Do` has answered with a response, its body is closed exactly once
by the time the call returns, on every path: `checkForSuccess` closes it for a status
outside `[200, 300)` and leaves it open otherwise; `getResponseObject` closes it whether
the decoding succeeds or fails; a non-streaming call and a streaming call, whatever the
status and whatever the read loop returns, leave it with one `Close` more than it had. -/
theorem body_closed_exactly_once {S F ρ α : Type} (rt : Runtime F) (c : client)
    (method path : String) (enc : S → JSON F) (payload : Option (GoValue S))
    (decode : Body → Except Error ρ) (unmarshal : Bytes → Except Error α)
    (req : HTTPRequest) (rsp : HTTPResponse) (hdo : c.httpClient.Do req = .ok rsp) :
    (¬ (200 ≤ rsp.StatusCode ∧ rsp.StatusCode < 300) →
      (checkForSuccess rt rsp).2.Body = rsp.Body.Close) ∧
    ((200 ≤ rsp.StatusCode ∧ rsp.StatusCode < 300) →
      (checkForSuccess rt rsp).2.Body = rsp.Body) ∧
    (getResponseObject decode rsp).2.Body = rsp.Body.Close ∧
    (c.newRequest rt method path enc payload = .ok req →
      (c.call rt method path enc payload decode).body = some rsp.Body.Close) ∧
    (c.newRequest rt "POST" path enc payload = .ok req →
      ∃ r, c.callStream rt path enc payload unmarshal = some r ∧
        r.body = some rsp.Body.Close) ∧
    rsp.Body.Close.closed = rsp.Body.closed + 1 := by
  have hbad : ¬ (200 ≤ rsp.StatusCode ∧ rsp.StatusCode < 300) →
      (checkForSuccess rt rsp).2.Body = rsp.Body.Close := by
    intro hstatus
    unfold checkForSuccess
    rw [if_neg hstatus]
    dsimp only
    split
    · rfl
    · split <;> rfl
  have hgood : (200 ≤ rsp.StatusCode ∧ rsp.StatusCode < 300) →
      (checkForSuccess rt rsp).2.Body = rsp.Body := by
    intro hstatus
    unfold checkForSuccess
    rw [if_pos hstatus]
  have hget : (getResponseObject decode rsp).2.Body = rsp.Body.Close := by
    unfold getResponseObject
    dsimp only
    split <;> rfl
  have hperf : ¬ (200 ≤ rsp.StatusCode ∧ rsp.StatusCode < 300) →
      ∃ err, c.performRequest rt req = (.error err, some rsp.Body.Close) := by
    intro hstatus
    have hb := hbad hstatus
    unfold client.performRequest
    rw [hdo]
    have hne : (checkForSuccess rt rsp).1 ≠ none := by
      unfold checkForSuccess
      rw [if_neg hstatus]
      dsimp only
      split
      · simp
      · split <;> simp
    cases hc : checkForSuccess rt rsp with
    | mk e rsp' =>
      rw [hc] at hb hne
      cases e with
      | none => exact absurd rfl hne
      | some err =>
        simp only at hb
        exact ⟨err, by simp only [hc, hb]⟩
  refine ⟨hbad, hgood, hget, ?_, ?_, rfl⟩
  · intro hreq
    by_cases hstatus : 200 ≤ rsp.StatusCode ∧ rsp.StatusCode < 300
    · rw [call_on_response rt c method path enc payload decode req rsp hreq hdo hstatus]
      simp only [hget]
    · obtain ⟨err, hp⟩ := hperf hstatus
      simp [client.call, hreq, hp]
  · intro hreq
    by_cases hstatus : 200 ≤ rsp.StatusCode ∧ rsp.StatusCode < 300
    · obtain ⟨r, _, hr⟩ := callStream_on_response rt c path enc payload unmarshal req rsp
        hreq hdo hstatus
      exact ⟨_, hr, rfl⟩
    · obtain ⟨err, hp⟩ := hperf hstatus
      exact ⟨⟨some req, some rsp.Body.Close, [], some err⟩, by simp [client.callStream, hreq, hp],
        rfl⟩

/-- C13, worked example: a 500 answered to `Engines` and a 200 answered to a streamed chat
completion each leave the body closed once. -/
theorem body_closed_exactly_once_witness :
    ((demoClient 500 (bytesOf "oops")).Engines demoRuntime).body
        = some { data := bytesOf "oops", err := .EOF, closed := 1 } ∧
    (∃ r, (demoClient 200 (bytesOf "data: [DONE]\n")).callStream demoRuntime "/chat/completions"
          (fun (_ : Unit) => (.null : JSON Int)) none demoUnmarshal = some r ∧
        r.body = some { data := bytesOf "data: [DONE]\n", err := .EOF, closed := 1 }) :=
  ⟨(body_closed_exactly_once demoRuntime (demoClient 500 (bytesOf "oops")) "GET" "/engines"
      (fun (_ : Unit) => (.null : JSON Int)) none demoRuntime.decodeEngines demoUnmarshal
      { Method := "GET", URL := "https://api.openai.com/v1/engines",
        Header := [("Authorization", "Bearer sk-demo"), ("Content-Type", "application/json")],
        Body := [] }
      { StatusCode := 500, Body := { data := bytesOf "oops", err := .EOF } } rfl).2.2.2.1
      (by decide),
    (body_closed_exactly_once demoRuntime (demoClient 200 (bytesOf "data: [DONE]\n")) "POST"
      "/chat/completions" (fun (_ : Unit) => (.null : JSON Int)) none demoRuntime.decodeEngines
      demoUnmarshal
      { Method := "POST", URL := "https://api.openai.com/v1/chat/completions",
        Header := [("Authorization", "Bearer sk-demo"), ("Content-Type", "application/json")],
        Body := [] }
      { StatusCode := 200, Body := { data := bytesOf "data: [DONE]\n", err := .EOF } }
      rfl).2.2.2.2.1 (by decide)⟩

theorem invalid_json_response_text :
    bytesOf "invalid json response" ++ bytesOf ": " = bytesOf "invalid json response: " := by
  decide

/-- C14, as the code has it: a non-streaming call whose request was built returns an error
of `httpClient.Do` as it is; and when `httpClient.Do` answers with a response whose status
is in `[200, 300)` and whose body does not decode into the target shape, the call returns
`fmt.Errorf("invalid json response: %w", err)`: an error whose text is
`invalid json response: ` followed by the text of the decoder's error, which wraps that
error, whatever it is, and is not an `APIError`. When the body decodes, the call returns the
decoded value and no error. -/
theorem undecodable_response_is_decode_error {S F ρ : Type} (rt : Runtime F) (c : client)
    (method path : String) (enc : S → JSON F) (payload : Option (GoValue S))
    (decode : Body → Except Error ρ) (req : HTTPRequest)
    (hreq : c.newRequest rt method path enc payload = .ok req) :
    (∀ transportErr, c.httpClient.Do req = .error transportErr →
      (c.call rt method path enc payload decode).result = .error transportErr) ∧
    (∀ rsp, c.httpClient.Do req = .ok rsp → 200 ≤ rsp.StatusCode ∧ rsp.StatusCode < 300 →
      (∀ cause, decode rsp.Body = .error cause →
        (c.call rt method path enc payload decode).result
            = .error (.errorf "invalid json response" true cause) ∧
          (Error.errorf "invalid json response" true cause).text
            = bytesOf "invalid json response: " ++ cause.text ∧
          ∀ e : APIError, (c.call rt method path enc payload decode).result ≠ .error (.api e)) ∧
      (∀ v, decode rsp.Body = .ok v →
        (c.call rt method path enc payload decode).result = .ok v)) := by
  constructor
  · intro transportErr hdo
    simp [client.call, hreq, client.performRequest, hdo]
  · intro rsp hdo hok
    rw [call_on_response rt c method path enc payload decode req rsp hreq hdo hok]
    constructor
    · intro cause hcause
      have hres : (getResponseObject decode rsp).1
          = .error (.errorf "invalid json response" true cause) := by
        simp [getResponseObject, hcause]
      refine ⟨hres, ?_, ?_⟩
      · rw [Error.text, invalid_json_response_text]
      · intro e he
        simp only at he
        rw [hres] at he
        cases he
    · intro v hv
      simp [getResponseObject, hv]

/-- C14, worked example: `Engines` answered with status 200 and a body the decoder rejects
with `io.EOF`. -/
theorem undecodable_response_is_decode_error_witness :
    ((demoClient 200 []).Engines demoRuntime).result
        = .error (.errorf "invalid json response" true .EOF) ∧
      (Error.errorf "invalid json response" true .EOF).text
        = bytesOf "invalid json response: " ++ Error.EOF.text ∧
      ∀ e : APIError, ((demoClient 200 []).Engines demoRuntime).result ≠ .error (.api e) :=
  ((undecodable_response_is_decode_error demoRuntime (demoClient 200 []) "GET" "/engines"
    (fun (_ : Unit) => (.null : JSON Int)) none demoRuntime.decodeEngines
    { Method := "GET", URL := "https://api.openai.com/v1/engines",
      Header := [("Authorization", "Bearer sk-demo"), ("Content-Type", "application/json")],
      Body := [] }
    (by decide)).2
    { StatusCode := 200, Body := { data := [], err := .EOF } } rfl (by decide)).1 .EOF rfl

/-- C14, counterexample: `Engines` answered with status 200 and an empty body fails with an
error whose text is `invalid json response: EOF`; the words `invalid response encoding` do
not occur in it. And when the empty body breaks off with a read error, the error that is
wrapped is that read error, which comes from the connection and not from a parser. -/
theorem undecodable_response_text_is_invalid_json_response :
    ((demoClient 200 []).Engines demoRuntime).result
        = .error (.errorf "invalid json response" true .EOF) ∧
    (Error.errorf "invalid json response" true .EOF).text
        = bytesOf "invalid json response: EOF" ∧
    ¬ (bytesOf "invalid response encoding"
        <:+: (Error.errorf "invalid json response" true .EOF).text) ∧
    (NewClient noClients
        (fun _ => .ok { StatusCode := 200,
                        Body := { data := [], err := .other (bytesOf "connection reset by peer") } })
        "sk-demo" []).map
        (fun built => (built.Engines { demoRuntime with decodeEngines := demoDecodeEngines }).result)
      = some (.error (.errorf "invalid json response" true
          (.other (bytesOf "connection reset by peer")))) := by
  refine ⟨by decide, by decide, by decide, by decide⟩

/-! ## The unterminated last line -/

/-- C16: what follows the last newline of a stream is never looked at. The loop delivers
the same frames and returns the same error as on the stream cut after its last newline; so
when every complete line lets the loop pass, it returns the reader's error (`io.EOF` at a
clean end) after the frames of the complete lines, even if the unterminated rest is
`data: [DONE]` or a frame that would decode. -/
theorem unterminated_last_line_is_ignored {α : Type} (unmarshal : Bytes → Except Error α)
    (endErr : Error) (closed : Nat) (lines : List Bytes) (tail : Bytes)
    (hl : ∀ x ∈ lines, IsLine x) (ht : 0x0A ∉ tail) :
    (∃ r, readStream unmarshal ⟨lines.flatten ++ tail, endErr, closed⟩ = some r ∧
      readStream unmarshal ⟨lines.flatten, endErr, closed⟩ = some r) ∧
    ((∀ x ∈ lines, Passes unmarshal x) →
      readStream unmarshal ⟨lines.flatten ++ tail, endErr, closed⟩
        = some ⟨lines.filterMap (frameOf unmarshal), some endErr⟩) := by
  have h1 := readStream_lines unmarshal endErr closed lines tail hl ht
  have h2 := readStream_lines unmarshal endErr closed lines [] hl (by simp)
  rw [List.append_nil] at h2
  refine ⟨⟨_, h1, h2⟩, ?_⟩
  intro hpass
  rw [h1]
  have := runLines_passes unmarshal endErr [] lines [] hpass
  rw [List.append_nil] at this
  rw [this]
  simp [runLines]

/-- C16, worked example: after the frame with id 1, an unterminated `data: [DONE]` gives
`io.EOF`, not `nil`, and an unterminated frame with id 2 is not delivered. -/
theorem unterminated_last_line_is_ignored_witness :
    readStream demoUnmarshal
        ⟨[bytesOf "data: \x7b\"id\":\"1\"\x7d\n"].flatten ++ bytesOf "data: [DONE]", .EOF, 0⟩
      = some ⟨[bytesOf "data: \x7b\"id\":\"1\"\x7d\n"].filterMap (frameOf demoUnmarshal),
          some .EOF⟩ ∧
    readStream demoUnmarshal
        ⟨[bytesOf "data: \x7b\"id\":\"1\"\x7d\n"].flatten ++ bytesOf "data: \x7b\"id\":\"2\"\x7d",
          .EOF, 0⟩
      = some ⟨[bytesOf "data: \x7b\"id\":\"1\"\x7d\n"].filterMap (frameOf demoUnmarshal),
          some .EOF⟩ ∧
    [bytesOf "data: \x7b\"id\":\"1\"\x7d\n"].filterMap (frameOf demoUnmarshal) = [demoFrame "1"] :=
  ⟨(unterminated_last_line_is_ignored demoUnmarshal .EOF 0
      [bytesOf "data: \x7b\"id\":\"1\"\x7d\n"] (bytesOf "data: [DONE]")
      (by decide) (by decide)).2 (by decide),
    (unterminated_last_line_is_ignored demoUnmarshal .EOF 0
      [bytesOf "data: \x7b\"id\":\"1\"\x7d\n"] (bytesOf "data: \x7b\"id\":\"2\"\x7d")
      (by decide) (by decide)).2 (by decide),
    by decide⟩

/-! ## Options -/

theorem applySetters_cons_some (b b1 : Building) (s : Setter) (post : List Setter)
    (h : s.option.apply b = some b1) :
    applySetters b (s :: post) = applySetters b1 post := by
  simp only [applySetters, h, Option.some_bind]

/-- A list of options that does not panic, cut at one of its options: the options before it
do not panic, nor does the option itself, nor the options behind it. -/
theorem applySetters_split (pre post : List Setter) (s : Setter) (b bf : Building)
    (h : applySetters b (pre ++ s :: post) = some bf) :
    ∃ b0 b1, applySetters b pre = some b0 ∧ s.option.apply b0 = some b1 ∧
      applySetters b1 post = some bf := by
  rw [applySetters_append] at h
  cases h0 : applySetters b pre with
  | none => simp [h0] at h
  | some b0 =>
    rw [h0, Option.some_bind] at h
    cases h1 : s.option.apply b0 with
    | none => simp [applySetters, h1] at h
    | some b1 =>
      rw [applySetters_cons_some b0 b1 s post h1] at h
      exact ⟨b0, b1, rfl, h1, h⟩

/-- A reading of the struct that no setter of a list writes is left as it was. -/
theorem applySetters_frame {β : Type} (get : Building → β) (touches : Setter → Bool)
    (hget : ∀ (s : Setter) (b b1 : Building), touches s = false → s.option.apply b = some b1 →
      get b1 = get b) :
    ∀ (post : List Setter) (b bf : Building), (∀ x ∈ post, touches x = false) →
      applySetters b post = some bf → get bf = get b := by
  intro post
  induction post with
  | nil =>
    intro b bf _ h
    rw [Option.some.inj h]
  | cons s ss ih =>
    intro b bf hall h
    cases h1 : s.option.apply b with
    | none => simp [applySetters, h1] at h
    | some b1 =>
      rw [applySetters_cons_some b b1 s ss h1] at h
      rw [ih b1 bf (fun x hx => hall x (by simp [hx])) h, hget s b b1 (hall s (by simp)) h1]

/-- When an option panics: the nil function always, `WithTimeout` when the client's
`http.Client` pointer is nil, and nothing else. -/
theorem setter_panics (s : Setter) (b : Building) :
    s.option.apply b = none ↔ (s = .null ∨ ((∃ t, s = .timeout t) ∧ b.httpClient = .nil)) := by
  obtain ⟨b1, b2, b3, ptr, b5, b6, b7, b8⟩ := b
  cases s with
  | timeout t =>
    cases ptr <;>
      simp [Setter.option, ClientOption.apply, WithTimeout]
  | _ =>
    simp [Setter.option, ClientOption.apply, WithOrg, WithDefaultEngine, WithUserAgent,
      WithBaseURL, WithHTTPClient]

/-- What one setter leaves alone: the API key always, every setting it does not write, what
every `http.Client` object answers, and every `http.Client` object but the one the client
points to, of which only `WithTimeout` changes anything, and only the timeout. -/
theorem setter_frame (s : Setter) (b b1 : Building) (h : s.option.apply b = some b1) :
    b1.apiKey = b.apiKey ∧
    (s.writes .baseURL = false → b1.baseURL = b.baseURL) ∧
    (s.writes .userAgent = false → b1.userAgent = b.userAgent) ∧
    (s.writes .defaultEngine = false → b1.defaultEngine = b.defaultEngine) ∧
    (s.writes .idOrg = false → b1.idOrg = b.idOrg) ∧
    (s.writes .httpClient = false →
      b1.httpClient = b.httpClient ∧ b1.transport = b.transport) ∧
    (s.writes .timeout = false → b1.timeout = b.timeout) ∧
    (∀ n, (b1.callers n).Do = (b.callers n).Do) ∧
    (∀ n, b.httpClient ≠ .caller n → b1.callers n = b.callers n) ∧
    ((∀ t, s ≠ .timeout t) → b1.callers = b.callers) := by
  obtain ⟨f1, f2, f3, ptr, f5, f6, f7, f8⟩ := b
  cases s with
  | org id =>
    cases h
    simp [Setter.writes, Building.timeout, Building.transport, Building.deref]
  | engine e =>
    cases h
    simp [Setter.writes, Building.timeout, Building.transport, Building.deref]
  | agent u =>
    cases h
    simp [Setter.writes, Building.timeout, Building.transport, Building.deref]
  | url u =>
    cases h
    simp [Setter.writes, Building.timeout, Building.transport, Building.deref]
  | http p =>
    cases h
    simp [Setter.writes, Building.timeout, Building.transport, Building.deref]
  | timeout t =>
    cases ptr with
    | nil => cases h
    | fresh =>
      cases h
      simp [Setter.writes, Building.timeout, Building.transport, Building.deref]
    | caller n =>
      cases h
      refine ⟨rfl, fun _ => rfl, fun _ => rfl, fun _ => rfl, fun _ => rfl, ?_, ?_, ?_, ?_, ?_⟩
      · intro _
        simp [Building.transport, Building.deref]
      · intro hw
        simp [Setter.writes] at hw
      · intro m
        by_cases hm : m = n <;> simp [hm]
      · intro m hm
        have : m ≠ n := fun e => hm (by rw [e])
        simp [this]
      · intro hw
        exact absurd rfl (hw t)
  | null => cases h

/-- After a setter that writes a setting, later setters that do not write it leave the
reading of that setting as the setter made it. -/
theorem last_writer {β : Type} (get : Building → β) (f : Field)
    (hget : ∀ (s : Setter) (b b1 : Building), s.writes f = false → s.option.apply b = some b1 →
      get b1 = get b)
    (callerClients : Nat → HTTPClient) (transport : HTTPRequest → Except Error HTTPResponse)
    (apiKey : String) (pre post : List Setter) (s : Setter) (bf : Building)
    (hb : buildWith callerClients transport apiKey (pre ++ s :: post) = some bf)
    (hpost : ∀ x ∈ post, x.writes f = false) :
    ∃ b0 b1, buildWith callerClients transport apiKey pre = some b0 ∧
      s.option.apply b0 = some b1 ∧ get bf = get b1 := by
  rw [buildWith_eq] at hb
  obtain ⟨b0, b1, h0, h1, h2⟩ := applySetters_split pre post s _ bf hb
  refine ⟨b0, b1, ?_, h1, ?_⟩
  · rw [buildWith_eq, h0]
  · exact applySetters_frame get (fun x => x.writes f) hget post b1 bf hpost h2

/-- A setting no setter of the list writes keeps its default. -/
theorem never_written {β : Type} (get : Building → β) (f : Field)
    (hget : ∀ (s : Setter) (b b1 : Building), s.writes f = false → s.option.apply b = some b1 →
      get b1 = get b)
    (callerClients : Nat → HTTPClient) (transport : HTTPRequest → Except Error HTTPResponse)
    (apiKey : String) (setters : List Setter) (bf : Building)
    (hb : buildWith callerClients transport apiKey setters = some bf)
    (h : ∀ x ∈ setters, x.writes f = false) :
    get bf = get (Building.defaults callerClients transport apiKey) := by
  rw [buildWith_eq] at hb
  exact applySetters_frame get (fun x => x.writes f) hget setters _ bf h hb

/-- No option changes what an `http.Client` object of the caller's answers. -/
theorem callers_do (callerClients : Nat → HTTPClient)
    (transport : HTTPRequest → Except Error HTTPResponse) (apiKey : String)
    (setters : List Setter) (bf : Building)
    (hb : buildWith callerClients transport apiKey setters = some bf) (n : Nat) :
    (bf.callers n).Do = (callerClients n).Do := by
  rw [buildWith_eq] at hb
  exact applySetters_frame (fun b => (b.callers n).Do) (fun _ => false)
    (fun s b b1 _ h => (setter_frame s b b1 h).2.2.2.2.2.2.2.1 n) setters _ bf
    (fun _ _ => rfl) hb

/-- An `http.Client` object of the caller's is as it was as long as no `WithTimeout` is
applied while the client points to it. -/
theorem callers_untouched (n : Nat) :
    ∀ (setters : List Setter) (b bf : Building), applySetters b setters = some bf →
      (∀ (a : List Setter) (t : Int) (rest : List Setter) (ba : Building),
        setters = a ++ .timeout t :: rest → applySetters b a = some ba →
          ba.httpClient ≠ .caller n) →
      bf.callers n = b.callers n := by
  intro setters
  induction setters with
  | nil =>
    intro b bf h _
    rw [Option.some.inj h]
  | cons s ss ih =>
    intro b bf h hno
    cases h1 : s.option.apply b with
    | none => simp [applySetters, h1] at h
    | some b1 =>
      rw [applySetters_cons_some b b1 s ss h1] at h
      have hrest : bf.callers n = b1.callers n := by
        apply ih b1 bf h
        intro a t rest ba hss ha
        apply hno (s :: a) t rest ba
        · rw [hss]
          rfl
        · rw [applySetters_cons_some b b1 s a h1]
          exact ha
      rw [hrest]
      obtain ⟨_, _, _, _, _, _, _, _, hptr, hother⟩ := setter_frame s b b1 h1
      by_cases hs : ∃ t, s = .timeout t
      · obtain ⟨t, rfl⟩ := hs
        exact hptr n (hno [] t ss b rfl rfl)
      · rw [hother (fun t e => hs ⟨t, e⟩)]

/-- A list of options panics exactly when one of its options panics on the struct the
options before it have made. -/
theorem applySetters_none (setters : List Setter) :
    ∀ b : Building, applySetters b setters = none ↔
      ∃ (a : List Setter) (s : Setter) (rest : List Setter) (ba : Building),
        setters = a ++ s :: rest ∧ applySetters b a = some ba ∧ s.option.apply ba = none := by
  induction setters with
  | nil =>
    intro b
    constructor
    · intro h
      cases h
    · rintro ⟨a, s, rest, ba, h, _⟩
      simp at h
  | cons x xs ih =>
    intro b
    cases h1 : x.option.apply b with
    | none =>
      constructor
      · intro _
        exact ⟨[], x, xs, b, rfl, rfl, h1⟩
      · intro _
        simp [applySetters, h1]
    | some b1 =>
      rw [applySetters_cons_some b b1 x xs h1, ih b1]
      constructor
      · rintro ⟨a, s, rest, ba, h, ha, hs⟩
        refine ⟨x :: a, s, rest, ba, by rw [h]; rfl, ?_, hs⟩
        rw [applySetters_cons_some b b1 x a h1]
        exact ha
      · rintro ⟨a, s, rest, ba, h, ha, hs⟩
        cases a with
        | nil =>
          simp only [List.nil_append, List.cons.injEq] at h
          obtain ⟨rfl, rfl⟩ := h
          have hba : b = ba := Option.some.inj ha
          subst hba
          rw [h1] at hs
          cases hs
        | cons y ys =>
          simp only [List.cons_append, List.cons.injEq] at h
          obtain ⟨rfl, rfl⟩ := h
          rw [applySetters_cons_some b b1 x ys h1] at ha
          exact ⟨ys, s, rest, ba, rfl, ha, hs⟩

/-- C12, as the code has it: `NewClient` starts from the defaults and applies its options
from left to right. A nil option panics, and so does `WithTimeout` when the client's
`http.Client` pointer is nil, as it is after `WithHTTPClient(nil)`; a list of options panics
exactly when one of its options does so on what the options before it have made, and then
`NewClient` returns nothing. Otherwise each setter leaves alone every setting but its own
(`WithHTTPClient`, which replaces the `http.Client`, thereby also decides the timeout in
effect), and for each setting the final value is the one written by the last setter of the
list that writes it, or the default if there is none. For the timeout the last writer is
the last `WithTimeout` or `WithHTTPClient`: after `WithTimeout t` it is `t`, and after
`WithHTTPClient p` it is the timeout the object behind `p` has at that point (none for a nil
`p`), which is the one the caller gave it unless a `WithTimeout` of the same list was
applied while the client pointed to that object. -/
theorem options_last_writer_wins (callerClients : Nat → HTTPClient)
    (transport : HTTPRequest → Except Error HTTPResponse) (apiKey : String) :
    (NewClient.build callerClients transport apiKey []
        = some
          { baseURL := defaultBaseURL, apiKey := apiKey, userAgent := defaultUserAgent,
            httpClient := .fresh, defaultEngine := DefaultEngine, idOrg := "",
            fresh := { Timeout := defaultTimeoutSeconds * Second, Do := transport },
            callers := callerClients } ∧
      NewClient callerClients transport apiKey []
        = some
          { baseURL := defaultBaseURL, apiKey := apiKey, userAgent := defaultUserAgent,
            httpClient := { Timeout := defaultTimeoutSeconds * Second, Do := transport },
            defaultEngine := DefaultEngine, idOrg := "" }) ∧
    (∀ (options : List ClientOption) (opt : ClientOption),
      NewClient.build callerClients transport apiKey (options ++ [opt])
        = (NewClient.build callerClients transport apiKey options).bind opt.apply) ∧
    (∀ (s : Setter) (b : Building),
      s.option.apply b = none ↔ (s = .null ∨ ((∃ t, s = .timeout t) ∧ b.httpClient = .nil))) ∧
    (∀ (setters : List Setter),
      buildWith callerClients transport apiKey setters = none ↔
        ∃ (a : List Setter) (s : Setter) (rest : List Setter) (ba : Building),
          setters = a ++ s :: rest ∧ buildWith callerClients transport apiKey a = some ba ∧
            s.option.apply ba = none) ∧
    (∀ (s : Setter) (b b1 : Building), s.option.apply b = some b1 →
      b1.apiKey = b.apiKey ∧
      (s.writes .baseURL = false → b1.baseURL = b.baseURL) ∧
      (s.writes .userAgent = false → b1.userAgent = b.userAgent) ∧
      (s.writes .defaultEngine = false → b1.defaultEngine = b.defaultEngine) ∧
      (s.writes .idOrg = false → b1.idOrg = b.idOrg) ∧
      (s.writes .httpClient = false →
        b1.httpClient = b.httpClient ∧ b1.transport = b.transport) ∧
      (s.writes .timeout = false → b1.timeout = b.timeout)) ∧
    (∀ (pre post : List Setter) (v : String) (bf : Building),
      buildWith callerClients transport apiKey (pre ++ .url v :: post) = some bf →
      (∀ x ∈ post, x.writes .baseURL = false) → bf.baseURL = v) ∧
    (∀ (pre post : List Setter) (v : String) (bf : Building),
      buildWith callerClients transport apiKey (pre ++ .agent v :: post) = some bf →
      (∀ x ∈ post, x.writes .userAgent = false) → bf.userAgent = v) ∧
    (∀ (pre post : List Setter) (v : String) (bf : Building),
      buildWith callerClients transport apiKey (pre ++ .engine v :: post) = some bf →
      (∀ x ∈ post, x.writes .defaultEngine = false) → bf.defaultEngine = v) ∧
    (∀ (pre post : List Setter) (v : String) (bf : Building),
      buildWith callerClients transport apiKey (pre ++ .org v :: post) = some bf →
      (∀ x ∈ post, x.writes .idOrg = false) → bf.idOrg = v) ∧
    (∀ (pre post : List Setter) (p : Option Nat) (bf : Building),
      buildWith callerClients transport apiKey (pre ++ .http p :: post) = some bf →
      (∀ x ∈ post, x.writes .httpClient = false) →
      bf.httpClient = ClientPtr.ofArg p ∧
        bf.transport = p.map (fun n => (callerClients n).Do)) ∧
    (∀ (pre post : List Setter) (t : Int) (bf : Building),
      buildWith callerClients transport apiKey (pre ++ .timeout t :: post) = some bf →
      (∀ x ∈ post, x.writes .timeout = false) → bf.timeout = some t) ∧
    (∀ (pre post : List Setter) (p : Option Nat) (bf : Building),
      buildWith callerClients transport apiKey (pre ++ .http p :: post) = some bf →
      (∀ x ∈ post, x.writes .timeout = false) →
      ∃ b0, buildWith callerClients transport apiKey pre = some b0 ∧
        bf.timeout = p.map (fun n => (b0.callers n).Timeout)) ∧
    (∀ (pre : List Setter) (n : Nat) (b0 : Building),
      buildWith callerClients transport apiKey pre = some b0 →
      (∀ (a : List Setter) (t : Int) (rest : List Setter) (ba : Building),
        pre = a ++ .timeout t :: rest → buildWith callerClients transport apiKey a = some ba →
          ba.httpClient ≠ .caller n) →
      b0.callers n = callerClients n) ∧
    (∀ (setters : List Setter) (bf : Building),
      buildWith callerClients transport apiKey setters = some bf →
      bf.apiKey = apiKey ∧
      ((∀ x ∈ setters, x.writes .baseURL = false) → bf.baseURL = defaultBaseURL) ∧
      ((∀ x ∈ setters, x.writes .userAgent = false) → bf.userAgent = defaultUserAgent) ∧
      ((∀ x ∈ setters, x.writes .defaultEngine = false) → bf.defaultEngine = DefaultEngine) ∧
      ((∀ x ∈ setters, x.writes .idOrg = false) → bf.idOrg = "") ∧
      ((∀ x ∈ setters, x.writes .httpClient = false) →
        bf.httpClient = .fresh ∧ bf.transport = some transport) ∧
      ((∀ x ∈ setters, x.writes .timeout = false) →
        bf.timeout = some (defaultTimeoutSeconds * Second))) := by
  have hurl := fun (s : Setter) (b b1 : Building) (hw : s.writes .baseURL = false)
    (h : s.option.apply b = some b1) => (setter_frame s b b1 h).2.1 hw
  have hagent := fun (s : Setter) (b b1 : Building) (hw : s.writes .userAgent = false)
    (h : s.option.apply b = some b1) => (setter_frame s b b1 h).2.2.1 hw
  have hengine := fun (s : Setter) (b b1 : Building) (hw : s.writes .defaultEngine = false)
    (h : s.option.apply b = some b1) => (setter_frame s b b1 h).2.2.2.1 hw
  have horg := fun (s : Setter) (b b1 : Building) (hw : s.writes .idOrg = false)
    (h : s.option.apply b = some b1) => (setter_frame s b b1 h).2.2.2.2.1 hw
  have hptr := fun (s : Setter) (b b1 : Building) (hw : s.writes .httpClient = false)
    (h : s.option.apply b = some b1) => ((setter_frame s b b1 h).2.2.2.2.2.1 hw).1
  have hdo := fun (s : Setter) (b b1 : Building) (hw : s.writes .httpClient = false)
    (h : s.option.apply b = some b1) => ((setter_frame s b b1 h).2.2.2.2.2.1 hw).2
  have htime := fun (s : Setter) (b b1 : Building) (hw : s.writes .timeout = false)
    (h : s.option.apply b = some b1) => (setter_frame s b b1 h).2.2.2.2.2.2.1 hw
  refine ⟨⟨rfl, rfl⟩, ?_, setter_panics, ?_, ?_, ?_, ?_, ?_, ?_, ?_, ?_, ?_, ?_, ?_⟩
  · intro options opt
    simp only [NewClient.build, List.foldl_append, List.foldl_cons, List.foldl_nil]
  · intro setters
    rw [buildWith_eq, applySetters_none]
    constructor
    · rintro ⟨a, s, rest, ba, h1, h2, h3⟩
      exact ⟨a, s, rest, ba, h1, by rw [buildWith_eq, h2], h3⟩
    · rintro ⟨a, s, rest, ba, h1, h2, h3⟩
      exact ⟨a, s, rest, ba, h1, by rw [← buildWith_eq, h2], h3⟩
  · intro s b b1 h
    obtain ⟨h1, h2, h3, h4, h5, h6, h7, _⟩ := setter_frame s b b1 h
    exact ⟨h1, h2, h3, h4, h5, h6, h7⟩
  · intro pre post v bf hb hpost
    obtain ⟨b0, b1, _, h1, h2⟩ := last_writer (fun b => b.baseURL) .baseURL hurl callerClients
      transport apiKey pre post (.url v) bf hb hpost
    cases h1
    exact h2
  · intro pre post v bf hb hpost
    obtain ⟨b0, b1, _, h1, h2⟩ := last_writer (fun b => b.userAgent) .userAgent hagent
      callerClients transport apiKey pre post (.agent v) bf hb hpost
    cases h1
    exact h2
  · intro pre post v bf hb hpost
    obtain ⟨b0, b1, _, h1, h2⟩ := last_writer (fun b => b.defaultEngine) .defaultEngine hengine
      callerClients transport apiKey pre post (.engine v) bf hb hpost
    cases h1
    exact h2
  · intro pre post v bf hb hpost
    obtain ⟨b0, b1, _, h1, h2⟩ := last_writer (fun b => b.idOrg) .idOrg horg callerClients
      transport apiKey pre post (.org v) bf hb hpost
    cases h1
    exact h2
  · intro pre post p bf hb hpost
    obtain ⟨b0, b1, h0, h1, h2⟩ := last_writer (fun b => b.httpClient) .httpClient hptr
      callerClients transport apiKey pre post (.http p) bf hb hpost
    obtain ⟨c0, _, h0', h1', h3⟩ := last_writer Building.transport .httpClient hdo
      callerClients transport apiKey pre post (.http p) bf hb hpost
    cases h1
    cases h1'
    constructor
    · rw [h2]
      cases p <;> rfl
    · rw [h3]
      cases p with
      | none => rfl
      | some n =>
        simp only [Building.transport, Building.deref, Option.map_some']
        rw [callers_do callerClients transport apiKey pre c0 h0' n]
  · intro pre post t bf hb hpost
    obtain ⟨b0, b1, _, h1, h2⟩ := last_writer Building.timeout .timeout htime callerClients
      transport apiKey pre post (.timeout t) bf hb hpost
    rw [h2]
    obtain ⟨f1, f2, f3, ptr, f5, f6, f7, f8⟩ := b0
    cases ptr with
    | nil => cases h1
    | fresh =>
      cases h1
      rfl
    | caller n =>
      cases h1
      simp [Building.timeout, Building.deref]
  · intro pre post p bf hb hpost
    obtain ⟨b0, b1, h0, h1, h2⟩ := last_writer Building.timeout .timeout htime callerClients
      transport apiKey pre post (.http p) bf hb hpost
    refine ⟨b0, h0, ?_⟩
    rw [h2]
    cases h1
    cases p <;> rfl
  · intro pre n b0 hb hno
    rw [buildWith_eq] at hb
    refine callers_untouched n pre _ b0 hb ?_
    intro a t rest ba hpre ha
    exact hno a t rest ba hpre (by rw [buildWith_eq, ha])
  · intro setters bf hb
    refine ⟨?_, ?_, ?_, ?_, ?_, ?_, ?_⟩
    · rw [buildWith_eq] at hb
      exact applySetters_frame (fun b => b.apiKey) (fun _ => false)
        (fun s b b1 _ h => (setter_frame s b b1 h).1) setters _ bf (fun _ _ => rfl) hb
    · exact never_written (fun b => b.baseURL) .baseURL hurl callerClients transport apiKey
        setters bf hb
    · exact never_written (fun b => b.userAgent) .userAgent hagent callerClients transport
        apiKey setters bf hb
    · exact never_written (fun b => b.defaultEngine) .defaultEngine hengine callerClients
        transport apiKey setters bf hb
    · exact never_written (fun b => b.idOrg) .idOrg horg callerClients transport apiKey setters
        bf hb
    · intro h
      exact ⟨never_written (fun b => b.httpClient) .httpClient hptr callerClients transport
          apiKey setters bf hb h,
        never_written Building.transport .httpClient hdo callerClients transport apiKey
          setters bf hb h⟩
    · exact never_written Building.timeout .timeout htime callerClients transport apiKey
        setters bf hb

/-- C12, worked examples: of two `WithOrg` the later wins whatever follows; a `WithTimeout`
after a `WithHTTPClient` decides the timeout; and with `WithTimeout(5)`, `WithHTTPClient(p)`
the timeout is the one the caller gave `p`, the `WithTimeout` having been applied while the
client pointed to the `http.Client` of `NewClient`. -/
theorem options_last_writer_wins_witness :
    (∃ bf, buildWith demoCallerClients (fun _ => .error .EOF) "sk-demo"
          ([Setter.org "a", Setter.timeout 5] ++ Setter.org "b"
            :: [Setter.http (some 0), Setter.agent "u"]) = some bf ∧
        bf.idOrg = "b") ∧
    (∃ bf, buildWith demoCallerClients (fun _ => .error .EOF) "sk-demo"
          ([Setter.http (some 0)] ++ Setter.timeout 5 :: [Setter.org "x"]) = some bf ∧
        bf.timeout = some 5) ∧
    (∃ b0, buildWith demoCallerClients (fun _ => .error .EOF) "sk-demo" [Setter.timeout 5]
          = some b0 ∧
        b0.callers 0 = demoCallerClients 0) ∧
    (∃ bf, buildWith demoCallerClients (fun _ => .error .EOF) "sk-demo"
          [Setter.timeout 5, Setter.http (some 0)] = some bf ∧
        bf.timeout = some (10 * Second)) :=
  ⟨⟨_, rfl,
      (options_last_writer_wins demoCallerClients (fun _ => .error .EOF)
        "sk-demo").2.2.2.2.2.2.2.2.1
        [Setter.org "a", Setter.timeout 5] [Setter.http (some 0), Setter.agent "u"] "b" _ rfl
        (by decide)⟩,
    ⟨_, rfl,
      (options_last_writer_wins demoCallerClients (fun _ => .error .EOF)
        "sk-demo").2.2.2.2.2.2.2.2.2.2.1
        [Setter.http (some 0)] [Setter.org "x"] 5 _ rfl (by decide)⟩,
    ⟨_, rfl,
      (options_last_writer_wins demoCallerClients (fun _ => .error .EOF)
        "sk-demo").2.2.2.2.2.2.2.2.2.2.2.2.1
        [Setter.timeout 5] 0 _ rfl (by
          intro a t rest ba h hb
          cases a with
          | nil =>
            rw [← Option.some.inj hb]
            decide
          | cons x xs => simp at h)⟩,
    ⟨_, rfl, by decide⟩⟩

/-- C12, counterexample: with the options `WithHTTPClient(p)`, `WithTimeout(5)`,
`WithHTTPClient(p)` for one and the same `p`, whose timeout the caller set to ten seconds,
the last option that sets the timeout is `WithHTTPClient(p)`, yet the client ends with the
timeout 5: `WithTimeout` wrote it into the object `p` points to. And with the options
`WithHTTPClient(nil)`, `WithTimeout(5)`, or with a nil option, `NewClient` panics: no field
has a final value. -/
theorem earlier_timeout_survives_same_http_client :
    (NewClient demoCallerClients (fun _ => .error .EOF) "sk-demo"
        [WithHTTPClient (some 0), WithTimeout 5, WithHTTPClient (some 0)]).map
        (fun built => built.httpClient.Timeout) = some 5 ∧
    (demoCallerClients 0).Timeout = 10 * Second ∧
    (NewClient demoCallerClients (fun _ => .error .EOF) "sk-demo"
        [WithHTTPClient (some 0), WithTimeout 5, WithHTTPClient (some 0)]).map
        (fun built => built.httpClient.Timeout) ≠ some (demoCallerClients 0).Timeout ∧
    (NewClient.build demoCallerClients (fun _ => .error .EOF) "sk-demo"
        [WithHTTPClient none, WithTimeout 5]).isNone = true ∧
    (NewClient.build demoCallerClients (fun _ => .error .EOF) "sk-demo"
        [WithOrg "org-1", ClientOption.nil]).isNone = true := by
  decide

/-! ## The console front end -/

theorem validateQuestion_eq (line : String) :
    validateQuestion line
      = if Trim line ' ' ∈ ["", "loop", "break", "continue", "cls", "exit", "block"] then ""
        else Trim line ' ' := by
  unfold validateQuestion
  by_cases h : Trim line ' ' ∈ ["", "loop", "break", "continue", "cls", "exit", "block"]
  · rw [if_pos h]
    have : (["", "loop", "break", "continue", "cls", "exit", "block"].any
        (fun x => Trim line ' ' == x)) = true := by
      rw [List.any_eq_true]
      exact ⟨_, h, by simp⟩
    simp only [this, if_true]
  · rw [if_neg h]
    have : ¬ (["", "loop", "break", "continue", "cls", "exit", "block"].any
        (fun x => Trim line ' ' == x)) = true := by
      rw [List.any_eq_true]
      rintro ⟨x, hx, hxe⟩
      rw [beq_iff_eq] at hxe
      rw [hxe] at h
      exact h hx
    simp only [this]
    rfl

/-- C15, as far as the code goes: a line is a control token, for which the `switch` of
`main` does not reach `GetResponse`, exactly when it is, once the spaces around it are
removed, one of `q`, the empty string, `loop`, `break`, `continue`, `cls`, `exit`, `block`:
`q`, and nothing else, ends the loop, and the other seven are passed over. For any other
line `validateQuestion` returns the line without the spaces around it, and the `switch`
calls `GetResponse` with that text. -/
theorem control_tokens_issue_no_call (line : String) :
    (Trim line ' ' ∈ controlTokens ↔ (dispatch line = .exit ∨ dispatch line = .skip)) ∧
    (Trim line ' ' = "q" ↔ dispatch line = .exit) ∧
    (Trim line ' ' ∈ ["", "loop", "break", "continue", "cls", "exit", "block"]
      ↔ dispatch line = .skip) ∧
    (Trim line ' ' ∉ controlTokens →
      validateQuestion line = Trim line ' ' ∧ dispatch line = .ask (Trim line ' ')) := by
  have hv := validateQuestion_eq line
  by_cases hkw : Trim line ' ' ∈ ["", "loop", "break", "continue", "cls", "exit", "block"]
  · rw [if_pos hkw] at hv
    have hd : dispatch line = .skip := by simp [dispatch, hv]
    have hq : Trim line ' ' ≠ "q" := by
      intro e
      rw [e] at hkw
      revert hkw
      decide
    have hmem : Trim line ' ' ∈ controlTokens := by
      simp only [controlTokens, List.mem_cons] at hkw ⊢
      exact Or.inr hkw
    refine ⟨⟨fun _ => Or.inr hd, fun _ => hmem⟩, ⟨fun e => absurd e hq, ?_⟩,
      ⟨fun _ => hd, fun _ => hkw⟩, fun hnot => absurd hmem hnot⟩
    intro e
    rw [hd] at e
    cases e
  · rw [if_neg hkw] at hv
    have hne : Trim line ' ' ≠ "" := fun e => hkw (by rw [e]; decide)
    by_cases hq : Trim line ' ' = "q"
    · have hd : dispatch line = .exit := by simp [dispatch, hv, hq]
      have hmem : Trim line ' ' ∈ controlTokens := by
        rw [hq]
        decide
      refine ⟨⟨fun _ => Or.inl hd, fun _ => hmem⟩, ⟨fun _ => hd, fun _ => hq⟩,
        ⟨fun h => absurd h hkw, ?_⟩, fun hnot => absurd hmem hnot⟩
      intro e
      rw [hd] at e
      cases e
    · have hd : dispatch line = .ask (Trim line ' ') := by simp [dispatch, hv, hq, hne]
      have hnot : Trim line ' ' ∉ controlTokens := by
        intro hmem
        simp only [controlTokens, List.mem_cons] at hmem hkw
        rcases hmem with h | h
        · exact hq h
        · exact hkw h
      refine ⟨⟨fun h => absurd h hnot, ?_⟩, ⟨fun h => absurd h hq, ?_⟩,
        ⟨fun h => absurd h hkw, ?_⟩, fun _ => ⟨hv, hd⟩⟩
      · rintro (e | e) <;> rw [hd] at e <;> cases e
      · intro e
        rw [hd] at e
        cases e
      · intro e
        rw [hd] at e
        cases e

/-- C15, worked example: ` q ` ends the loop, `  loop` is passed over, ` hello you ` is
handed to `GetResponse` as `hello you`, and `q` followed by a tab is not a control token. -/
theorem control_tokens_issue_no_call_witness :
    dispatch " q " = .exit ∧ dispatch "  loop" = .skip ∧
    dispatch " hello you " = .ask "hello you" ∧ dispatch "q\t" = .ask "q\t" ∧
    (validateQuestion " hello you " = Trim " hello you " ' ' ∧
      dispatch " hello you " = .ask (Trim " hello you " ' ')) :=
  ⟨by decide, by decide, by decide, by decide,
    (control_tokens_issue_no_call " hello you ").2.2.2 (by decide)⟩

end Gpt
